import Mathlib

/-!
# Verification of the flo GPU rendering engine (shallow embedding)

This file embeds the parts of the `wkwan/flo` codebase that the frozen claims
speak about, and proves or refutes each claim.

Embedding conventions:
* Vulkan device objects (buffers, memories, fences, descriptor sets, ...) are
  opaque handles; we model them as natural numbers handed out by a fresh-handle
  counter.  `0` plays the role of the null handle.
* `u64`/`usize`/`u32` values are modelled as `Nat`; where the source performs a
  lossy `as u32` cast we take the value `% 2 ^ 32`.
* `f32` payloads (matrices, colors, positions) are never computed with by the
  code under verification - they are only copied - so scalar entries are
  modelled by integers.
* Fallible Rust functions returning `Result` become `Except String`- or
  `Option`-valued functions; a Rust panic (e.g. `Option::unwrap` on `None`)
  is modelled as `none`.
-/

namespace Flo

/-! ## Memory pool allocator (src/memory_pool.rs) -/

/-- Round `x` up to a multiple of `a`: `((x + a - 1) / a) * a`, the expression
used at src/memory_pool.rs:52 and :56. -/
def alignUp (x a : Nat) : Nat := ((x + a - 1) / a) * a

/-- `FreeRegion` from src/memory_pool.rs:19-24. -/
structure FreeRegion where
  allocation_index : Nat
  offset : Nat
  size : Nat
deriving DecidableEq, Repr

/-- `MemoryBlock` from src/memory_pool.rs:26-33.  The `memory` handle of chunk
`i` is identified with `i` itself (the source stores
`allocations[allocation_index].memory`, one distinct device handle per chunk). -/
structure MemoryBlock where
  memory : Nat
  offset : Nat
  size : Nat
  allocation_index : Nat
  pool_memory_type : Nat
deriving DecidableEq, Repr

/-- `MemoryPool` from src/memory_pool.rs:4-11; `allocations` keeps only each
chunk's size (the handle is the chunk's index). -/
structure MemoryPool where
  allocations : List Nat
  freeRegions : List FreeRegion
  allocationSize : Nat
  memoryTypeIndex : Nat
  totalAllocated : Nat
deriving DecidableEq, Repr

/-- `MemoryPool::new` (src/memory_pool.rs:36-49): the configured chunk size is
clamped to at least 256 MB. -/
def MemoryPool.new (memoryTypeIndex allocationSize : Nat) : MemoryPool :=
  { allocations := []
    freeRegions := []
    allocationSize := max allocationSize (256 * 1024 * 1024)
    memoryTypeIndex := memoryTypeIndex
    totalAllocated := 0 }

/-- The first-fit scan of `MemoryPool::allocate` (src/memory_pool.rs:55-81):
find the first free region that fits `alignedSize` plus alignment padding;
on a hit the region is split (strict leftover) or removed (exact fit). -/
def scanFree (mt alignedSize alignment : Nat) :
    List FreeRegion → Option (MemoryBlock × List FreeRegion)
  | [] => none
  | r :: rest =>
    let alignedOffset := alignUp r.offset alignment
    let padding := alignedOffset - r.offset
    if alignedSize + padding ≤ r.size then
      let block : MemoryBlock :=
        { memory := r.allocation_index
          offset := alignedOffset
          size := alignedSize
          allocation_index := r.allocation_index
          pool_memory_type := mt }
      if alignedSize + padding < r.size then
        some (block,
          { allocation_index := r.allocation_index
            offset := alignedOffset + alignedSize
            size := r.size - alignedSize - padding } :: rest)
      else
        some (block, rest)
    else
      match scanFree mt alignedSize alignment rest with
      | some (b, rs) => some (b, r :: rs)
      | none => none

/-- `MemoryPool::allocate_new_chunk` (src/memory_pool.rs:91-116): appends one
coarse chunk and one full-chunk free region. -/
def allocateNewChunk (p : MemoryPool) (size : Nat) : MemoryPool :=
  { p with
    allocations := p.allocations ++ [size]
    freeRegions := p.freeRegions ++
      [{ allocation_index := p.allocations.length, offset := 0, size := size }]
    totalAllocated := p.totalAllocated + 1 }

/-- `MemoryPool::allocate` (src/memory_pool.rs:51-89): first-fit scan; on a
miss allocate a chunk of `max(allocation_size, aligned_size)` and retry.  The
source retries by recursion; since only one retry can ever happen (the new
chunk always fits), the retry is unrolled once, with the provably unreachable
second miss mapped to `none`. -/
def MemoryPool.allocate (p : MemoryPool) (size alignment : Nat) :
    Option (MemoryBlock × MemoryPool) :=
  let alignedSize := alignUp size alignment
  match scanFree p.memoryTypeIndex alignedSize alignment p.freeRegions with
  | some (b, rs) => some (b, { p with freeRegions := rs })
  | none =>
    let chunkSize := max p.allocationSize alignedSize
    let p1 := allocateNewChunk p chunkSize
    match scanFree p1.memoryTypeIndex alignedSize alignment p1.freeRegions with
    | some (b, rs) => some (b, { p1 with freeRegions := rs })
    | none => none

/-- `MemoryPool::free` (src/memory_pool.rs:118-127): append the block as a new
free region; no coalescing. -/
def MemoryPool.free (p : MemoryPool) (b : MemoryBlock) : MemoryPool :=
  { p with freeRegions := p.freeRegions ++
      [{ allocation_index := b.allocation_index, offset := b.offset, size := b.size }] }

/-! ### Segments and disjointness -/

/-- A memory segment: a half-open byte interval of one coarse chunk. -/
structure Seg where
  ai : Nat
  off : Nat
  sz : Nat
deriving DecidableEq, Repr

/-- Two segments overlap when they live in the same chunk and their half-open
intervals intersect. -/
def Seg.overlap (s t : Seg) : Prop :=
  s.ai = t.ai ∧ s.off < t.off + t.sz ∧ t.off < s.off + s.sz

instance (s t : Seg) : Decidable (s.overlap t) := by
  unfold Seg.overlap; infer_instance

/-- Segment `s` is contained in segment `r` (same chunk). -/
def Seg.inside (s r : Seg) : Prop :=
  s.ai = r.ai ∧ r.off ≤ s.off ∧ s.off + s.sz ≤ r.off + r.sz

def FreeRegion.seg (r : FreeRegion) : Seg :=
  { ai := r.allocation_index, off := r.offset, sz := r.size }

def MemoryBlock.seg (b : MemoryBlock) : Seg :=
  { ai := b.allocation_index, off := b.offset, sz := b.size }

/-- No two segments of the family overlap. -/
def SegsOk (l : List Seg) : Prop := l.Pairwise (fun s t => ¬ s.overlap t)

theorem Seg.overlap_symm {s t : Seg} (h : s.overlap t) : t.overlap s := by
  obtain ⟨h1, h2, h3⟩ := h; exact ⟨h1.symm, h3, h2⟩

theorem notOverlap_symm : Symmetric (fun s t : Seg => ¬ s.overlap t) := by
  intro s t h hc; exact h (Seg.overlap_symm hc)

theorem Seg.inside_notOverlap {s r t : Seg} (hs : s.inside r) (h : ¬ r.overlap t) :
    ¬ s.overlap t := by
  intro hc
  obtain ⟨hai, h1, h2⟩ := hc
  obtain ⟨hai', hlo, hhi⟩ := hs
  exact h ⟨hai' ▸ hai, by omega, by omega⟩

/-! ### Facts about `alignUp` -/

theorem alignUp_dvd (x a : Nat) : a ∣ alignUp x a := dvd_mul_left a _

theorem le_alignUp (x a : Nat) (h : 1 ≤ a) : x ≤ alignUp x a := by
  unfold alignUp
  have h1 := Nat.mod_add_div (x + a - 1) a
  have h2 := Nat.mod_lt (x + a - 1) (by omega : 0 < a)
  have h3 : ((x + a - 1) / a) * a = a * ((x + a - 1) / a) := Nat.mul_comm _ _
  omega

theorem alignUp_zero (a : Nat) (h : 1 ≤ a) : alignUp 0 a = 0 := by
  unfold alignUp
  rw [Nat.div_eq_of_lt (by omega : 0 + a - 1 < a)]
  exact Nat.zero_mul a

/-! ### First-fit scan lemmas -/

/-- A block found by the scan has an alignment-multiple offset and the aligned
size. -/
theorem scanFree_aligned (mt A a : Nat) :
    ∀ (regions : List FreeRegion) (b : MemoryBlock) (rs : List FreeRegion),
      scanFree mt A a regions = some (b, rs) → a ∣ b.offset ∧ b.size = A := by
  intro regions
  induction regions with
  | nil => intro b rs h; simp [scanFree] at h
  | cons r rest ih =>
    intro b rs h
    simp only [scanFree] at h
    split at h
    · split at h <;>
        (injection h with h1; injection h1 with hb hrs; subst hb;
         exact ⟨alignUp_dvd r.offset a, rfl⟩)
    · cases hrec : scanFree mt A a rest with
      | none => rw [hrec] at h; simp at h
      | some pr =>
        obtain ⟨b0, rs0⟩ := pr
        rw [hrec] at h
        simp only [Option.some.injEq, Prod.mk.injEq] at h
        obtain ⟨rfl, -⟩ := h
        exact ih b0 rs0 hrec

/-- Every chunk index appearing in the scan's output comes from the input
region list. -/
theorem scanFree_ai (mt A a : Nat) :
    ∀ (regions : List FreeRegion) (b : MemoryBlock) (rs : List FreeRegion),
      scanFree mt A a regions = some (b, rs) →
      (∃ r ∈ regions, b.allocation_index = r.allocation_index) ∧
      ∀ r' ∈ rs, ∃ r ∈ regions, r'.allocation_index = r.allocation_index := by
  intro regions
  induction regions with
  | nil => intro b rs h; simp [scanFree] at h
  | cons r rest ih =>
    intro b rs h
    simp only [scanFree] at h
    split at h
    · split at h <;>
        (injection h with h1; injection h1 with hb hrs; subst hb; subst hrs)
      · refine ⟨⟨r, List.mem_cons_self r rest, rfl⟩, ?_⟩
        intro r' hr'
        rcases List.mem_cons.mp hr' with h | h
        · exact ⟨r, List.mem_cons_self r rest, by rw [h]⟩
        · exact ⟨r', List.mem_cons_of_mem r h, rfl⟩
      · exact ⟨⟨r, List.mem_cons_self r rest, rfl⟩,
          fun r' hr' => ⟨r', List.mem_cons_of_mem r hr', rfl⟩⟩
    · cases hrec : scanFree mt A a rest with
      | none => rw [hrec] at h; simp at h
      | some pr =>
        obtain ⟨b0, rs0⟩ := pr
        rw [hrec] at h
        injection h with h1
        injection h1 with hb hrs
        subst hb; subst hrs
        obtain ⟨⟨r0, hr0, hb0⟩, hrest⟩ := ih b0 rs0 hrec
        refine ⟨⟨r0, List.mem_cons_of_mem r hr0, hb0⟩, ?_⟩
        intro r' hr'
        rcases List.mem_cons.mp hr' with h | h
        · exact ⟨r, List.mem_cons_self r rest, by rw [h]⟩
        · obtain ⟨r1, hr1, he⟩ := hrest r' h
          exact ⟨r1, List.mem_cons_of_mem r hr1, he⟩

/-- On a hit, the scan removes one free region and replaces it by the returned
block plus an optional leftover, all inside the consumed region; disjointness
of the whole family (free regions plus any ambient `ctx` of live segments) is
preserved, with the new block added to the family. -/
theorem scanFree_segsOk (mt A a : Nat) (ha : 1 ≤ a) :
    ∀ (regions : List FreeRegion) (b : MemoryBlock) (rs : List FreeRegion)
      (ctx : List Seg),
      scanFree mt A a regions = some (b, rs) →
      SegsOk (regions.map FreeRegion.seg ++ ctx) →
      SegsOk (rs.map FreeRegion.seg ++ b.seg :: ctx) := by
  intro regions
  induction regions with
  | nil => intro b rs ctx h _; simp [scanFree] at h
  | cons r rest ih =>
    intro b rs ctx h hok
    simp only [scanFree] at h
    have hok1 : (r.seg :: (rest.map FreeRegion.seg ++ ctx)).Pairwise
        (fun s t => ¬ s.overlap t) := by
      rw [List.map_cons, List.cons_append] at hok; exact hok
    obtain ⟨hr, hok2⟩ := List.pairwise_cons.mp hok1
    split at h
    case isTrue hfit =>
      have hoff : r.offset ≤ alignUp r.offset a := le_alignUp r.offset a ha
      have hbin : (MemoryBlock.seg
          { memory := r.allocation_index, offset := alignUp r.offset a, size := A,
            allocation_index := r.allocation_index, pool_memory_type := mt }).inside r.seg := by
        refine ⟨rfl, hoff, ?_⟩
        simp only [MemoryBlock.seg, FreeRegion.seg]
        omega
      have hstep1 : SegsOk (rest.map FreeRegion.seg ++
          (MemoryBlock.seg
            { memory := r.allocation_index, offset := alignUp r.offset a, size := A,
              allocation_index := r.allocation_index, pool_memory_type := mt }) :: ctx) := by
        refine (List.pairwise_middle (fun h => notOverlap_symm h)).mpr ?_
        refine List.pairwise_cons.mpr ⟨?_, hok2⟩
        intro t ht
        exact Seg.inside_notOverlap hbin (hr t ht)
      split at h <;>
        (injection h with h1; injection h1 with hb hrs; subst hb; subst hrs)
      case isTrue hlt =>
        -- strict leftover: the region splits into the block and a remainder
        have hremin : (FreeRegion.seg
            { allocation_index := r.allocation_index, offset := alignUp r.offset a + A,
              size := r.size - A - (alignUp r.offset a - r.offset) }).inside r.seg := by
          refine ⟨rfl, ?_, ?_⟩ <;> (simp only [FreeRegion.seg]; omega)
        rw [List.map_cons, List.cons_append]
        refine List.pairwise_cons.mpr ⟨?_, hstep1⟩
        intro t ht
        rcases List.mem_append.mp ht with htl | htr
        · exact Seg.inside_notOverlap hremin (hr t (List.mem_append.mpr (Or.inl htl)))
        · rcases List.mem_cons.mp htr with hteq | htc
          · subst hteq
            simp only [Seg.overlap, FreeRegion.seg, MemoryBlock.seg]
            omega
          · exact Seg.inside_notOverlap hremin (hr t (List.mem_append.mpr (Or.inr htc)))
      case isFalse hlt =>
        exact hstep1
    case isFalse hfit =>
      cases hrec : scanFree mt A a rest with
      | none => rw [hrec] at h; simp at h
      | some pr =>
        obtain ⟨b0, rs0⟩ := pr
        rw [hrec] at h
        injection h with h1
        injection h1 with hb hrs
        subst hb; subst hrs
        have hmid : SegsOk (rest.map FreeRegion.seg ++ r.seg :: ctx) :=
          (List.pairwise_middle (fun h => notOverlap_symm h)).mpr hok1
        have hih := ih b0 rs0 (r.seg :: ctx) hrec hmid
        have hperm : List.Perm (rs0.map FreeRegion.seg ++ b0.seg :: r.seg :: ctx)
            (r.seg :: (rs0.map FreeRegion.seg ++ b0.seg :: ctx)) :=
          (List.perm_middle).trans
            ((List.Perm.cons b0.seg List.perm_middle).trans
              ((List.Perm.swap r.seg b0.seg (rs0.map FreeRegion.seg ++ ctx)).trans
                (List.Perm.cons r.seg List.perm_middle.symm)))
        have hres := (List.Perm.pairwise_iff (fun h => notOverlap_symm h) hperm).mp hih
        rw [List.map_cons, List.cons_append]
        exact hres

/-- `allocate` preserves disjointness of free regions together with an
ambient family `live` of live-block segments, adds the returned block to the
family, keeps all chunk indices in range, never shrinks the chunk list, and
returns an alignment-multiple offset. -/
theorem allocate_inv (p p' : MemoryPool) (b : MemoryBlock) (size a : Nat)
    (live : List Seg) (ha : 1 ≤ a) (h : p.allocate size a = some (b, p'))
    (hok : SegsOk (p.freeRegions.map FreeRegion.seg ++ live))
    (hai : ∀ t ∈ p.freeRegions.map FreeRegion.seg ++ live, t.ai < p.allocations.length) :
    SegsOk (p'.freeRegions.map FreeRegion.seg ++ b.seg :: live) ∧
    (∀ t ∈ p'.freeRegions.map FreeRegion.seg ++ b.seg :: live,
      t.ai < p'.allocations.length) ∧
    a ∣ b.offset ∧ p.allocations.length ≤ p'.allocations.length := by
  simp only [MemoryPool.allocate] at h
  split at h
  case h_1 b1 rs1 hscan =>
    injection h with h1
    injection h1 with hb hp
    subst hb; subst hp
    obtain ⟨⟨rb, hrb, hbai⟩, hrsai⟩ := scanFree_ai _ _ _ _ _ _ hscan
    refine ⟨scanFree_segsOk _ _ _ ha _ _ _ _ hscan hok, ?_, (scanFree_aligned _ _ _ _ _ _ hscan).1, le_refl _⟩
    intro t ht
    rcases List.mem_append.mp ht with htl | htr
    · obtain ⟨r', hr', rfl⟩ := List.mem_map.mp htl
      obtain ⟨r0, hr0, he⟩ := hrsai r' hr'
      have := hai r0.seg (List.mem_append.mpr (Or.inl (List.mem_map_of_mem _ hr0)))
      simpa [FreeRegion.seg, he] using this
    · rcases List.mem_cons.mp htr with hteq | htc
      · subst hteq
        have := hai rb.seg (List.mem_append.mpr (Or.inl (List.mem_map_of_mem _ hrb)))
        simpa [FreeRegion.seg, MemoryBlock.seg, hbai] using this
      · exact hai t (List.mem_append.mpr (Or.inr htc))
  case h_2 hscan =>
    have hlen1 : (allocateNewChunk p (max p.allocationSize (alignUp size a))).allocations.length
        = p.allocations.length + 1 := by
      simp [allocateNewChunk]
    have hnewok : SegsOk ((allocateNewChunk p
        (max p.allocationSize (alignUp size a))).freeRegions.map FreeRegion.seg ++ live) := by
      simp only [allocateNewChunk, List.map_append, List.map_cons, List.map_nil]
      rw [List.append_assoc]
      refine (List.pairwise_middle (fun hh => notOverlap_symm hh)).mpr ?_
      refine List.pairwise_cons.mpr ⟨?_, hok⟩
      intro t ht
      intro hov
      have hta := hai t ht
      have : t.ai = p.allocations.length := hov.1.symm ▸ rfl
      omega
    have hnewai : ∀ t ∈ (allocateNewChunk p
        (max p.allocationSize (alignUp size a))).freeRegions.map FreeRegion.seg ++ live,
        t.ai < (allocateNewChunk p (max p.allocationSize (alignUp size a))).allocations.length := by
      intro t ht
      rw [hlen1]
      simp only [allocateNewChunk, List.map_append, List.map_cons, List.map_nil] at ht
      rw [List.append_assoc] at ht
      rcases List.mem_append.mp ht with htl | htr
      · have := hai t (List.mem_append.mpr (Or.inl htl))
        omega
      · rcases List.mem_cons.mp htr with hteq | htc
        · subst hteq; simp [FreeRegion.seg]
        · have := hai t (List.mem_append.mpr (Or.inr htc))
          omega
    split at h
    case h_1 b1 rs1 hscan2 =>
      injection h with h1
      injection h1 with hb hp
      subst hb; subst hp
      obtain ⟨⟨rb, hrb, hbai⟩, hrsai⟩ := scanFree_ai _ _ _ _ _ _ hscan2
      refine ⟨scanFree_segsOk _ _ _ ha _ _ _ _ hscan2 hnewok, ?_, (scanFree_aligned _ _ _ _ _ _ hscan2).1, by rw [hlen1]; omega⟩
      intro t ht
      rcases List.mem_append.mp ht with htl | htr
      · obtain ⟨r', hr', rfl⟩ := List.mem_map.mp htl
        obtain ⟨r0, hr0, he⟩ := hrsai r' hr'
        have := hnewai r0.seg (List.mem_append.mpr (Or.inl (List.mem_map_of_mem _ hr0)))
        simpa [FreeRegion.seg, he] using this
      · rcases List.mem_cons.mp htr with hteq | htc
        · subst hteq
          have := hnewai rb.seg (List.mem_append.mpr (Or.inl (List.mem_map_of_mem _ hrb)))
          simpa [FreeRegion.seg, MemoryBlock.seg, hbai] using this
        · exact hnewai t (List.mem_append.mpr (Or.inr htc))
    case h_2 hscan2 =>
      exact absurd h (by simp)

/-! ### Allocate/free traces -/

/-- A live block together with the alignment it was requested with. -/
structure LiveBlock where
  block : MemoryBlock
  alignment : Nat
deriving DecidableEq, Repr

/-- One caller-visible pool operation: `MemoryPool::allocate` or
`MemoryPool::free`.  A `free` may only name a block the caller owns, mirroring
Rust's move semantics of `MemoryBlock`. -/
inductive PoolOp where
  | alloc (size alignment : Nat)
  | free (lb : LiveBlock)
deriving DecidableEq, Repr

/-- `allocate` is called with a nonzero alignment (a zero alignment would be a
division by zero in the source). -/
def PoolOp.alignmentPos : PoolOp → Prop
  | .alloc _ alignment => 1 ≤ alignment
  | .free _ => True

instance (op : PoolOp) : Decidable op.alignmentPos := by
  cases op <;> (unfold PoolOp.alignmentPos; infer_instance)

def poolStep (s : MemoryPool × List LiveBlock) (op : PoolOp) :
    MemoryPool × List LiveBlock :=
  match op with
  | .alloc size alignment =>
    match s.1.allocate size alignment with
    | some (b, p') => (p', { block := b, alignment := alignment } :: s.2)
    | none => s
  | .free lb =>
    if lb ∈ s.2 then (s.1.free lb.block, s.2.erase lb) else s

/-- Run a trace of allocate/free calls against a fresh pool. -/
def poolRun (mt sz : Nat) (ops : List PoolOp) : MemoryPool × List LiveBlock :=
  ops.foldl poolStep (MemoryPool.new mt sz, [])

/-- All segments of a pool state: free regions plus live blocks. -/
def poolSegs (s : MemoryPool × List LiveBlock) : List Seg :=
  s.1.freeRegions.map FreeRegion.seg ++ s.2.map fun lb => lb.block.seg

/-- The allocator invariant: all segments are pairwise disjoint, refer to
chunks that exist, and every live block's offset is a multiple of the
alignment it was requested with. -/
def PoolInv (s : MemoryPool × List LiveBlock) : Prop :=
  SegsOk (poolSegs s) ∧
  (∀ t ∈ poolSegs s, t.ai < s.1.allocations.length) ∧
  (∀ lb ∈ s.2, lb.alignment ∣ lb.block.offset)

theorem poolStep_inv (s : MemoryPool × List LiveBlock) (op : PoolOp)
    (hop : op.alignmentPos) (hinv : PoolInv s) : PoolInv (poolStep s op) := by
  obtain ⟨hok, hai, hdvd⟩ := hinv
  cases op with
  | alloc size alignment =>
    simp only [poolStep]
    simp only [poolSegs] at hok hai
    cases halloc : s.1.allocate size alignment with
    | none => exact ⟨hok, hai, hdvd⟩
    | some pr =>
      obtain ⟨b, p'⟩ := pr
      obtain ⟨hok', hai', hdvd', -⟩ :=
        allocate_inv s.1 p' b size alignment (s.2.map fun lb => lb.block.seg) hop halloc hok hai
      refine ⟨?_, ?_, ?_⟩
      · simpa [poolSegs] using hok'
      · intro t ht
        apply hai'
        simpa [poolSegs] using ht
      · intro lb hlb
        rcases List.mem_cons.mp hlb with hlb | hlb
        · subst hlb; exact hdvd'
        · exact hdvd lb hlb
  | free lb =>
    simp only [poolStep]
    by_cases hmem : lb ∈ s.2
    · rw [if_pos hmem]
      have h1 : List.Perm (s.2.map fun x => x.block.seg)
          (lb.block.seg :: (s.2.erase lb).map fun x => x.block.seg) := by
        simpa using (List.perm_cons_erase hmem).map fun x => x.block.seg
      have hperm : List.Perm (poolSegs s) (poolSegs (s.1.free lb.block, s.2.erase lb)) := by
        simp only [poolSegs, MemoryPool.free, List.map_append, List.map_cons, List.map_nil,
          List.append_assoc, List.singleton_append]
        exact List.Perm.append_left _ h1
      refine ⟨(List.Perm.pairwise_iff (fun hh => notOverlap_symm hh) hperm).mp hok, ?_, ?_⟩
      · intro t ht
        exact hai t (hperm.mem_iff.mpr ht)
      · intro lb' hlb'
        exact hdvd lb' (List.mem_of_mem_erase hlb')
    · rw [if_neg hmem]
      exact ⟨hok, hai, hdvd⟩

theorem poolRun_inv (mt sz : Nat) (ops : List PoolOp)
    (h : ∀ op ∈ ops, op.alignmentPos) : PoolInv (poolRun mt sz ops) := by
  have hgen : ∀ (l : List PoolOp) (s : MemoryPool × List LiveBlock),
      (∀ op ∈ l, op.alignmentPos) → PoolInv s → PoolInv (l.foldl poolStep s) := by
    intro l
    induction l with
    | nil => intro s _ hs; exact hs
    | cons op rest ih =>
      intro s hl hs
      exact ih (poolStep s op) (fun o ho => hl o (List.mem_cons_of_mem op ho))
        (poolStep_inv s op (hl op (List.mem_cons_self op rest)) hs)
  refine hgen ops (MemoryPool.new mt sz, []) h ?_
  refine ⟨?_, ?_, ?_⟩ <;> simp [poolSegs, MemoryPool.new, SegsOk]

/-- C2.  Pool allocator disjointness and alignment invariant: over any
sequence of `allocate`/`free` calls (all alignments at least 1) against a
fresh pool, every pair of distinct free regions is non-overlapping, every
pair of distinct live blocks is non-overlapping, and every live block's
offset is a multiple of the alignment it was requested with. -/
theorem pool_allocate_disjoint_aligned (mt sz : Nat) (ops : List PoolOp)
    (h : ∀ op ∈ ops, op.alignmentPos) :
    ((poolRun mt sz ops).1.freeRegions.map FreeRegion.seg).Pairwise
      (fun s t => ¬ s.overlap t) ∧
    ((poolRun mt sz ops).2.map fun lb => lb.block.seg).Pairwise
      (fun s t => ¬ s.overlap t) ∧
    ∀ lb ∈ (poolRun mt sz ops).2, lb.alignment ∣ lb.block.offset := by
  obtain ⟨hok, -, hdvd⟩ := poolRun_inv mt sz ops h
  rw [poolSegs] at hok
  obtain ⟨h1, h2, -⟩ := List.pairwise_append.mp hok
  exact ⟨h1, h2, hdvd⟩

/-- The operation trace used by the C2 witness: two allocations and one
free of the first returned block. -/
def c2WitnessOps : List PoolOp :=
  [PoolOp.alloc 100 16, PoolOp.alloc 50 32,
   PoolOp.free ⟨⟨0, 0, 112, 0, 7⟩, 16⟩]

/-- Witness trace for C2 evaluated concretely. -/
theorem pool_allocate_disjoint_aligned_witness :
    (∀ op ∈ c2WitnessOps, op.alignmentPos) ∧
    (((poolRun 7 0 c2WitnessOps).1.freeRegions.map FreeRegion.seg).Pairwise
      (fun s t => ¬ s.overlap t) ∧
    (((poolRun 7 0 c2WitnessOps).2.map fun lb => lb.block.seg).Pairwise
      (fun s t => ¬ s.overlap t)) ∧
    ∀ lb ∈ (poolRun 7 0 c2WitnessOps).2, lb.alignment ∣ lb.block.offset) :=
  ⟨by decide, pool_allocate_disjoint_aligned 7 0 c2WitnessOps (by decide)⟩

/-! ### Growth on a missed scan (C3) -/

/-- If the scan misses on `regions`, then after appending a fresh full chunk
region of size `chunk ≥ A` the scan succeeds, returning a block at offset 0
of the fresh chunk. -/
theorem scanFree_append_fresh (mt A a : Nat) (ha : 1 ≤ a) (n chunk : Nat)
    (hc : A ≤ chunk) :
    ∀ regions, scanFree mt A a regions = none →
      scanFree mt A a (regions ++ [{ allocation_index := n, offset := 0, size := chunk }]) =
        some ({ memory := n, offset := 0, size := A, allocation_index := n,
                pool_memory_type := mt },
          regions ++ (if A < chunk then
            [{ allocation_index := n, offset := A, size := chunk - A }] else [])) := by
  intro regions
  induction regions with
  | nil =>
    intro _
    simp only [List.nil_append, scanFree, alignUp_zero a ha]
    by_cases hlt : A < chunk
    · rw [if_pos (by omega), if_pos (by omega), if_pos hlt]
      simp
    · rw [if_pos (by omega), if_neg (by omega), if_neg hlt]
  | cons r rest ih =>
    intro h
    simp only [scanFree] at h
    by_cases hg : A + (alignUp r.offset a - r.offset) ≤ r.size
    · rw [if_pos hg] at h
      split at h <;> simp at h
    · rw [if_neg hg] at h
      cases hrest : scanFree mt A a rest with
      | some pr => rw [hrest] at h; obtain ⟨b0, rs0⟩ := pr; simp at h
      | none =>
        have := ih hrest
        simp only [List.cons_append, scanFree, if_neg hg, List.append_eq, this]

/-- On a missed scan, `allocate` creates exactly one new chunk of size
`max(allocation_size, aligned_size)` and the retried allocation succeeds at
offset 0 of that chunk. -/
theorem allocate_miss (p : MemoryPool) (size a : Nat) (ha : 1 ≤ a)
    (h : scanFree p.memoryTypeIndex (alignUp size a) a p.freeRegions = none) :
    p.allocate size a = some
      ({ memory := p.allocations.length, offset := 0, size := alignUp size a,
         allocation_index := p.allocations.length, pool_memory_type := p.memoryTypeIndex },
       { allocations := p.allocations ++ [max p.allocationSize (alignUp size a)]
         freeRegions := p.freeRegions ++
           (if alignUp size a < max p.allocationSize (alignUp size a) then
             [{ allocation_index := p.allocations.length, offset := alignUp size a,
                size := max p.allocationSize (alignUp size a) - alignUp size a }] else [])
         allocationSize := p.allocationSize
         memoryTypeIndex := p.memoryTypeIndex
         totalAllocated := p.totalAllocated + 1 }) := by
  have h2 := scanFree_append_fresh p.memoryTypeIndex (alignUp size a) a ha
    p.allocations.length (max p.allocationSize (alignUp size a))
    (le_max_right _ _) p.freeRegions h
  simp only [MemoryPool.allocate, allocateNewChunk]
  rw [h, h2]

/-- `allocate` never fails (device memory permitting): with a nonzero
alignment it always returns a block. -/
theorem allocate_isSome (p : MemoryPool) (size a : Nat) (ha : 1 ≤ a) :
    (p.allocate size a).isSome := by
  cases hscan : scanFree p.memoryTypeIndex (alignUp size a) a p.freeRegions with
  | some pr =>
    obtain ⟨b, rs⟩ := pr
    simp [MemoryPool.allocate, hscan]
  | none =>
    rw [allocate_miss p size a ha hscan]
    rfl

/-- C3 (counterexample).  The claim states that a missed allocation creates a
chunk of `max(configured_chunk_size, requested_size)`.  Against an empty pool
(configured size clamped to 256 MB = 268435456), `allocate(268435457, 2)`
creates one chunk of size 268435458 (the request rounded up to the
alignment), while the claim predicts `max 268435456 268435457 = 268435457`. -/
theorem allocator_growth_counterexample :
    (((MemoryPool.new 0 0).allocate 268435457 2).map fun x => x.2.allocations)
      = some [268435458] ∧
    max (MemoryPool.new 0 0).allocationSize 268435457 = 268435457 ∧
    (268435458 : Nat) ≠ 268435457 := by
  refine ⟨by decide, by decide, by decide⟩

/-- C3 (amended).  `allocate(size, alignment)` does a first-fit scan; on a
miss it creates exactly one new coarse chunk sized
`max(configured_chunk_size, size rounded up to a multiple of alignment)` (the
configured chunk size itself is clamped to at least 256 MB by `new`), and the
retried allocation then succeeds at offset 0 of the new chunk, so the pool
never fails a request while device memory remains available; in particular
`allocate(10 MB, 256)` against an empty pool configured with a 256 MB chunk
size creates exactly one new chunk of size 256 MB, not 10 MB. -/
theorem allocator_growth_amended (mt c : Nat) (p : MemoryPool) (size a : Nat)
    (ha : 1 ≤ a)
    (hmiss : scanFree p.memoryTypeIndex (alignUp size a) a p.freeRegions = none) :
    (MemoryPool.new mt c).allocationSize = max c (256 * 1024 * 1024) ∧
    (∃ b p', p.allocate size a = some (b, p') ∧
      p'.allocations = p.allocations ++ [max p.allocationSize (alignUp size a)] ∧
      p'.totalAllocated = p.totalAllocated + 1 ∧
      b.offset = 0 ∧ b.size = alignUp size a ∧
      b.allocation_index = p.allocations.length) ∧
    (p.allocate size a).isSome ∧
    (((MemoryPool.new 0 (256 * 1024 * 1024)).allocate (10 * 1024 * 1024) 256).map
      fun x => x.2.allocations) = some [256 * 1024 * 1024] := by
  refine ⟨rfl, ?_, allocate_isSome p size a ha, by decide⟩
  exact ⟨_, _, allocate_miss p size a ha hmiss, rfl, rfl, rfl, rfl, rfl⟩

/-- Witness for C3 (amended): allocating 5 bytes at alignment 1 from a fresh
empty pool misses the (empty) free list and grows exactly one chunk. -/
theorem allocator_growth_amended_witness :
    (MemoryPool.new 3 0).allocationSize = max 0 (256 * 1024 * 1024) ∧
    (∃ b p', (MemoryPool.new 3 0).allocate 5 1 = some (b, p') ∧
      p'.allocations = (MemoryPool.new 3 0).allocations ++
        [max (MemoryPool.new 3 0).allocationSize (alignUp 5 1)] ∧
      p'.totalAllocated = (MemoryPool.new 3 0).totalAllocated + 1 ∧
      b.offset = 0 ∧ b.size = alignUp 5 1 ∧
      b.allocation_index = (MemoryPool.new 3 0).allocations.length) ∧
    ((MemoryPool.new 3 0).allocate 5 1).isSome ∧
    (((MemoryPool.new 0 (256 * 1024 * 1024)).allocate (10 * 1024 * 1024) 256).map
      fun x => x.2.allocations) = some [256 * 1024 * 1024] :=
  allocator_growth_amended 3 0 (MemoryPool.new 3 0) 5 1 (by decide) (by decide)

/-! ## Staging buffer (src/memory_pool.rs, `MemoryPoolManager`) -/

/-- The staging-buffer fields of `MemoryPoolManager`
(src/memory_pool.rs:140-157), plus the fresh-handle counter modelling buffer
and memory creation. -/
structure StagingState where
  staging_buffer : Option Nat
  staging_memory : Option Nat
  staging_size : Nat
  next_handle : Nat
deriving DecidableEq, Repr

/-- `MemoryPoolManager::new` (src/memory_pool.rs:148-157). -/
def StagingState.init : StagingState :=
  { staging_buffer := none, staging_memory := none, staging_size := 0, next_handle := 1 }

/-- `MemoryPoolManager::get_staging_buffer` (src/memory_pool.rs:159-213):
if the current staging buffer is too small, destroy it and create a new
host-visible/coherent buffer of `max(required_size, 16 MB)`; then return
`(staging_buffer.unwrap(), staging_memory.unwrap())`.  The `unwrap` panics on
a fresh manager when no growth happened; that panic is modelled as `none`. -/
def get_staging_buffer (st : StagingState) (required_size : Nat) :
    Option ((Nat × Nat) × StagingState) :=
  if st.staging_size < required_size then
    let size := max required_size (16 * 1024 * 1024)
    let buffer := st.next_handle
    let memory := st.next_handle + 1
    some ((buffer, memory),
      { staging_buffer := some buffer, staging_memory := some memory,
        staging_size := size, next_handle := st.next_handle + 2 })
  else
    match st.staging_buffer, st.staging_memory with
    | some b, some m => some ((b, m), st)
    | _, _ => none

/-- The state after one `get_staging_buffer` call (a panic leaves the state). -/
def stagingStep (st : StagingState) (required : Nat) : StagingState :=
  match get_staging_buffer st required with
  | some (_, st') => st'
  | none => st

/-- Run a sequence of `get_staging_buffer` calls. -/
def stagingRun (st : StagingState) (reqs : List Nat) : StagingState :=
  reqs.foldl stagingStep st

theorem stagingStep_mono (st : StagingState) (r : Nat) :
    st.staging_size ≤ (stagingStep st r).staging_size ∧
    r ≤ (stagingStep st r).staging_size := by
  unfold stagingStep get_staging_buffer
  by_cases hlt : st.staging_size < r
  · rw [if_pos hlt]
    constructor <;> (simp; try omega)
  · rw [if_neg hlt]
    cases hb : st.staging_buffer <;> cases hm : st.staging_memory <;> simp <;> omega

theorem stagingRun_mono (reqs : List Nat) :
    ∀ st : StagingState, st.staging_size ≤ (stagingRun st reqs).staging_size := by
  induction reqs with
  | nil => intro st; exact le_refl _
  | cons r rest ih =>
    intro st
    exact le_trans (stagingStep_mono st r).1 (ih (stagingStep st r))

/-- C9 (counterexample).  On a fresh manager, `get_staging_buffer(0)` finds
`staging_size = 0 ≥ 0 = required_size`, takes the no-growth path and panics
on `staging_buffer.unwrap()` (modelled as `none`): no existing buffer is
returned, contradicting the claim's unconditional "returns the existing
staging buffer unchanged whenever its current size is at least
required_size". -/
theorem staging_buffer_counterexample :
    0 ≤ StagingState.init.staging_size ∧
    get_staging_buffer StagingState.init 0 = none := ⟨by decide, rfl⟩

/-- C9 (amended).  `get_staging_buffer(required_size)` returns the existing
staging buffer unchanged whenever one exists and its current size is at least
`required_size` (on a fresh manager with `required_size = 0` it panics
instead); otherwise it destroys the old buffer and creates a new
host-visible/coherent one of size `max(required_size, 16 MB)`; across any
sequence of calls the staging size never decreases and ends at least as large
as every single request seen. -/
theorem staging_buffer_amended :
    (∀ (st : StagingState) (b m required : Nat), st.staging_buffer = some b →
      st.staging_memory = some m → required ≤ st.staging_size →
      get_staging_buffer st required = some ((b, m), st)) ∧
    (∀ (st : StagingState) (required : Nat), st.staging_size < required →
      get_staging_buffer st required =
        some ((st.next_handle, st.next_handle + 1),
          { staging_buffer := some st.next_handle,
            staging_memory := some (st.next_handle + 1),
            staging_size := max required (16 * 1024 * 1024),
            next_handle := st.next_handle + 2 })) ∧
    (∀ (st : StagingState) (reqs : List Nat),
      st.staging_size ≤ (stagingRun st reqs).staging_size) ∧
    (∀ (st : StagingState) (reqs : List Nat) (r : Nat), r ∈ reqs →
      r ≤ (stagingRun st reqs).staging_size) := by
  refine ⟨?_, ?_, fun st reqs => stagingRun_mono reqs st, ?_⟩
  · intro st b m required hb hm hle
    unfold get_staging_buffer
    rw [if_neg (by omega), hb, hm]
  · intro st required hlt
    unfold get_staging_buffer
    rw [if_pos hlt]
  · intro st reqs
    induction reqs generalizing st with
    | nil => intro r hr; simp at hr
    | cons q rest ih =>
      intro r hr
      rcases List.mem_cons.mp hr with rfl | hr
      · exact le_trans (stagingStep_mono st r).2 (stagingRun_mono rest (stagingStep st r))
      · exact ih (stagingStep st q) r hr

/-- Witness for C9 (amended), instantiated on a concrete state and request
sequence. -/
theorem staging_buffer_amended_witness :
    get_staging_buffer ⟨some 5, some 6, 100, 7⟩ 40 =
      some ((5, 6), ⟨some 5, some 6, 100, 7⟩) ∧
    get_staging_buffer StagingState.init 3 =
      some ((1, 2), ⟨some 1, some 2, max 3 (16 * 1024 * 1024), 3⟩) ∧
    StagingState.init.staging_size ≤ (stagingRun StagingState.init [3, 50, 7]).staging_size ∧
    50 ≤ (stagingRun StagingState.init [3, 50, 7]).staging_size :=
  ⟨staging_buffer_amended.1 _ 5 6 40 rfl rfl (by decide),
   staging_buffer_amended.2.1 StagingState.init 3 (by decide),
   staging_buffer_amended.2.2.1 StagingState.init [3, 50, 7],
   staging_buffer_amended.2.2.2 StagingState.init [3, 50, 7] 50 (by decide)⟩

/-! ## Frame pacing (src/vulkan_common.rs, `VulkanCore::begin_frame` /
`VulkanCore::end_frame`)

`MAX_FRAMES_IN_FLIGHT = 2` (src/constants.rs:2); the per-slot fences are
created in the signaled state (src/vulkan_common.rs:376-377); `current_frame`
starts at 0 (src/vulkan_common.rs:961).  The GPU signals a submitted fence at
some later, nondeterministic time; this is modelled as a separate step of a
transition system.  `frame_index` (the number of completed `end_frame` calls),
`recording` and `last_submitted` are ghost state recording the history. -/

inductive FenceState where
  | signaled
  | unsignaled
  | pending (frame : Nat)
deriving DecidableEq, Repr

structure SyncState where
  current_frame : Nat
  frame_index : Nat
  recording : Bool
  fences : Nat → FenceState
  last_submitted : Nat → Option Nat

/-- State right after `VulkanCore::new`. -/
def SyncState.init : SyncState :=
  { current_frame := 0, frame_index := 0, recording := false,
    fences := fun _ => .signaled, last_submitted := fun _ => none }

/-- Device calls issued by `begin_frame`/`end_frame`. -/
inductive FrameAction where
  | waitFence (slot : Nat)
  | acquireImage
  | resetFence (slot : Nat)
  | resetCommandBuffer (index : Nat)
  | submit (slot : Nat)
  | present (image_index : Nat)
deriving DecidableEq, Repr

/-- `VulkanCore::begin_frame` (src/vulkan_common.rs:967-990): wait on the
current slot's fence, acquire a swapchain image (the index is produced by the
driver, here a parameter), reset the slot's fence, reset the acquired image's
command buffer, and return the image index. -/
def begin_frame_actions (st : SyncState) (image_index : Nat) :
    List FrameAction × Nat :=
  ([.waitFence st.current_frame, .acquireImage, .resetFence st.current_frame,
    .resetCommandBuffer image_index], image_index)

/-- Sync-state effect of `begin_frame`: the slot's fence is reset to
unsignaled and the CPU starts recording. -/
def beginUpdate (st : SyncState) : SyncState :=
  { st with
    fences := fun s => if s = st.current_frame then .unsignaled else st.fences s,
    recording := true }

/-- Sync-state effect of `VulkanCore::end_frame`
(src/vulkan_common.rs:992-1024): `queue_submit` passes the slot's fence, which
becomes pending on the submitted frame, and
`current_frame = (current_frame + 1) % MAX_FRAMES_IN_FLIGHT`. -/
def endUpdate (st : SyncState) : SyncState :=
  { st with
    fences := fun s => if s = st.current_frame then .pending st.frame_index
      else st.fences s,
    last_submitted := fun s => if s = st.current_frame then some st.frame_index
      else st.last_submitted s,
    frame_index := st.frame_index + 1,
    current_frame := (st.current_frame + 1) % 2,
    recording := false }

/-- The GPU signals fence `s` after finishing the submitted work. -/
def signalUpdate (st : SyncState) (s : Nat) : SyncState :=
  { st with fences := fun t => if t = s then .signaled else st.fences t }

/-- One step of the frame-pacing system: `begin_frame` (which can only
proceed once `wait_for_fences` sees the slot's fence signaled), `end_frame`,
or an asynchronous GPU fence signal. -/
inductive SyncStep : SyncState → SyncState → Prop where
  | beginFrame (st : SyncState) (hw : st.fences st.current_frame = .signaled)
      (hr : st.recording = false) : SyncStep st (beginUpdate st)
  | endFrame (st : SyncState) (hr : st.recording = true) :
      SyncStep st (endUpdate st)
  | gpuSignal (st : SyncState) (s k : Nat) (hp : st.fences s = .pending k) :
      SyncStep st (signalUpdate st s)

inductive SyncReachable : SyncState → Prop where
  | init : SyncReachable SyncState.init
  | step {st st' : SyncState} : SyncReachable st → SyncStep st st' →
      SyncReachable st'

/-- History invariant of the frame-pacing system. -/
def SyncInv (st : SyncState) : Prop :=
  st.current_frame = st.frame_index % 2 ∧
  (2 ≤ st.frame_index →
    st.last_submitted (st.frame_index % 2) = some (st.frame_index - 2)) ∧
  (1 ≤ st.frame_index →
    st.last_submitted ((st.frame_index + 1) % 2) = some (st.frame_index - 1)) ∧
  (st.frame_index < 2 → st.last_submitted (st.frame_index % 2) = none) ∧
  (st.frame_index = 0 → st.last_submitted ((st.frame_index + 1) % 2) = none)

theorem syncInv_reachable {st : SyncState} (h : SyncReachable st) : SyncInv st := by
  induction h with
  | init =>
    refine ⟨rfl, ?_, ?_, ?_, ?_⟩ <;> intro h <;> simp [SyncState.init] at h ⊢
  | step hreach hstep ih =>
    rename_i st st'
    obtain ⟨hcf, h2, h3, h4, h5⟩ := ih
    cases hstep with
    | beginFrame hw hr => exact ⟨hcf, h2, h3, h4, h5⟩
    | endFrame hr =>
      have hne : (st.frame_index + 1) % 2 ≠ st.frame_index % 2 := by omega
      have heq2 : (st.frame_index + 1 + 1) % 2 = st.frame_index % 2 := by omega
      refine ⟨by simp [endUpdate, hcf, Nat.add_mod], ?_, ?_, ?_, ?_⟩
      · intro h
        simp only [endUpdate] at h
        simp only [endUpdate, hcf]
        rw [if_neg hne, h3 (by omega)]
        exact congrArg some (by omega)
      · intro h
        simp only [endUpdate, hcf]
        rw [heq2, if_pos rfl]
        exact congrArg some (by omega)
      · intro h
        simp only [endUpdate] at h
        have h0 : st.frame_index = 0 := by omega
        simp only [endUpdate, hcf]
        rw [if_neg hne]
        have := h5 h0
        rw [h0] at this ⊢
        exact this
      · intro h
        simp only [endUpdate] at h
        omega
    | gpuSignal s k hp => exact ⟨hcf, h2, h3, h4, h5⟩

/-- C1.  Double-buffered frame pacing.  (i) `begin_frame` performs
wait-fence, acquire-image, reset-fence and reset-command-buffer in that order
and returns the acquired image index; (ii) `end_frame` submits signaling the
slot's fence and advances the slot counter modulo 2; (iii) whenever the CPU
begins recording frame `n` (any step that turns `recording` on in a reachable
state), the current slot is `n mod 2`, its fence is signaled, and for
`n ≥ 2` that fence is exactly the one last submitted at frame `n - 2`:
recording never begins before the fence of frame `n - 2` is signaled. -/
theorem frame_pacing :
    (∀ (st : SyncState) (image_index : Nat),
      begin_frame_actions st image_index =
        ([FrameAction.waitFence st.current_frame, FrameAction.acquireImage,
          FrameAction.resetFence st.current_frame,
          FrameAction.resetCommandBuffer image_index], image_index)) ∧
    (∀ st : SyncState,
      (endUpdate st).current_frame = (st.current_frame + 1) % 2 ∧
      (endUpdate st).fences st.current_frame = .pending st.frame_index ∧
      (endUpdate st).frame_index = st.frame_index + 1) ∧
    (∀ st st' : SyncState, SyncReachable st → SyncStep st st' →
      st'.recording = true → st.recording = false →
      st.current_frame = st.frame_index % 2 ∧
      st.fences (st.frame_index % 2) = .signaled ∧
      (2 ≤ st.frame_index →
        st.last_submitted (st.frame_index % 2) = some (st.frame_index - 2))) := by
  refine ⟨fun st i => rfl, fun st => ⟨rfl, by simp [endUpdate], rfl⟩, ?_⟩
  intro st st' hreach hstep hrec' hrec
  obtain ⟨hcf, h2, -, -, -⟩ := syncInv_reachable hreach
  cases hstep with
  | beginFrame hw hr => exact ⟨hcf, hcf ▸ hw, h2⟩
  | endFrame hr =>
    have hfa : false = true := hrec'
    exact Bool.noConfusion hfa
  | gpuSignal s k hp =>
    have hst : st.recording = true := hrec'
    rw [hrec] at hst
    exact Bool.noConfusion hst

/-- Witness for C1: the concrete trace
begin 0, end 0, begin 1, end 1, signal fence 0, then begin 2; at the moment
frame 2 begins recording, slot 0's fence is signaled and was last submitted
at frame 0. -/
theorem frame_pacing_witness :
    (signalUpdate (endUpdate (beginUpdate (endUpdate (beginUpdate
        SyncState.init)))) 0).current_frame
      = (signalUpdate (endUpdate (beginUpdate (endUpdate (beginUpdate
        SyncState.init)))) 0).frame_index % 2 ∧
    (signalUpdate (endUpdate (beginUpdate (endUpdate (beginUpdate
        SyncState.init)))) 0).fences 0 = FenceState.signaled ∧
    (signalUpdate (endUpdate (beginUpdate (endUpdate (beginUpdate
        SyncState.init)))) 0).last_submitted 0 = some 0 := by
  have hreach : SyncReachable (signalUpdate (endUpdate (beginUpdate (endUpdate
      (beginUpdate SyncState.init)))) 0) :=
    SyncReachable.step
      (SyncReachable.step
        (SyncReachable.step
          (SyncReachable.step
            (SyncReachable.step SyncReachable.init
              (SyncStep.beginFrame SyncState.init rfl rfl))
            (SyncStep.endFrame _ rfl))
          (SyncStep.beginFrame _ rfl rfl))
        (SyncStep.endFrame _ rfl))
      (SyncStep.gpuSignal _ 0 0 rfl)
  have h := frame_pacing.2.2 _ _ hreach
    (SyncStep.beginFrame _ rfl rfl) rfl rfl
  exact ⟨h.1, h.2.1, h.2.2 (by decide)⟩

/-! ## Multi-mesh renderer (src/vulkan_renderer_unified.rs)

`Mat4` (glam) and color payloads are only ever copied by the renderer, never
computed with, so their `f32` entries are modelled by integers.  Device
objects are opaque handles (`Nat`), handed out by the renderer state's
fresh-handle counter; `0` is the null handle.  `TextureResources` is an
opaque bundle (one handle). -/

abbrev Mat4 := List Int

/-- `Mat4::IDENTITY`, column-major. -/
def idMat4 : Mat4 := [1, 0, 0, 0, 0, 1, 0, 0, 0, 0, 1, 0, 0, 0, 0, 1]

/-- The all-zero joint matrix. -/
def zeroMat4 : Mat4 := List.replicate 16 0

abbrev Color := List Int

/-- `[1.0, 1.0, 1.0, 1.0]`, the default white base color. -/
def whiteColor : Color := [1, 1, 1, 1]

/-- One vertex payload (position/normal/uv/color floats), opaque. -/
abbrev Vertex := List Int

/-- `MeshData`: vertex + index arrays handed to the add/replace calls. -/
structure MeshData where
  vertices : List Vertex
  indices : List Nat
deriving DecidableEq, Repr

/-- `SkinnedMeshData`: vertices, indices and initial joint matrices. -/
structure SkinnedMeshData where
  vertices : List Vertex
  indices : List Nat
  joint_matrices : List Mat4
deriving DecidableEq, Repr

/-- `MeshEntry` (src/vulkan_renderer_unified.rs:75-104).  Buffer/memory
handles are `Nat` (0 = null); pooled-memory blocks and texture resources are
opaque handles. -/
structure MeshEntry where
  vertex_buffer : Nat
  vertex_buffer_memory : Option Nat
  vertex_memory_block : Option Nat
  index_buffer : Nat
  index_buffer_memory : Option Nat
  index_memory_block : Option Nat
  index_count : Nat
  transforms : List Mat4
  pipeline_name : Option String
  texture_resources : Option Nat
  instance_buffer : Option Nat
  instance_buffer_memory : Option Nat
  instance_memory_block : Option Nat
  instance_count : Nat
  use_instancing : Bool
  base_color : Color
  joint_matrices : Option (List Mat4)
  joint_buffer : Option Nat
  joint_buffer_memory : Option Nat
  is_skinned : Bool
  skinned_descriptor_pool : Option Nat
  skinned_descriptor_set_layout : Option Nat
  skinned_descriptor_sets : Option (List Nat)
  camera_uniform_buffer : Option Nat
  camera_uniform_memory : Option Nat
deriving DecidableEq, Repr

/-- The inert zeroed entry written by `remove_mesh`
(src/vulkan_renderer_unified.rs:1936-1962): null buffers, no memory, zero
index count, no transforms, no instances, default white color. -/
def inertMeshEntry : MeshEntry :=
  { vertex_buffer := 0
    vertex_buffer_memory := none
    vertex_memory_block := none
    index_buffer := 0
    index_buffer_memory := none
    index_memory_block := none
    index_count := 0
    transforms := []
    pipeline_name := none
    texture_resources := none
    instance_buffer := none
    instance_buffer_memory := none
    instance_memory_block := none
    instance_count := 0
    use_instancing := false
    base_color := whiteColor
    joint_matrices := none
    joint_buffer := none
    joint_buffer_memory := none
    is_skinned := false
    skinned_descriptor_pool := none
    skinned_descriptor_set_layout := none
    skinned_descriptor_sets := none
    camera_uniform_buffer := none
    camera_uniform_memory := none }

/-- The legacy raw-buffer fields of `VulkanRenderer` used by the fallback
draw (`BufferResources`, src/vulkan_renderer_unified.rs:17-25, reduced to
what the fallback reads). -/
structure LegacyBuffers where
  vertex_buffer : Nat
  index_buffer : Option Nat
  index_count : Nat
deriving DecidableEq, Repr

/-- The `VulkanRenderer` state relevant to the modelled operations: the
pipeline registry (name, pipeline handle, layout handle), the default
pipeline and layout, the legacy global texture resources and raw buffers,
the mesh registry, the swapchain image count, and the fresh-handle counter
modelling device-object creation.  Fields of the source struct that none of
the modelled operations touch (egui integration, water push constants,
textured pipelines, the memory-pool manager, ...) are omitted. -/
structure RendererState where
  pipelines : List (String × Nat × Nat)
  graphics_pipeline : Nat
  pipeline_layout : Nat
  textures : Option Nat
  buffers : Option LegacyBuffers
  instance_count : Nat
  meshes : List MeshEntry
  swapchain_image_count : Nat
  next_handle : Nat
deriving DecidableEq, Repr

/-! ### Frame recording (src/vulkan_renderer_unified.rs:3675-4118) -/

/-- The commands recorded into the frame's command buffer, as far as the
claims are concerned.  Matrix/color push-constant payloads are carried;
descriptor-set binds carry the bound set or texture-bundle handle. -/
inductive Cmd where
  | beginRenderPass (image_index : Nat)
  | setViewport
  | setScissor
  | bindPipeline (handle : Nat)
  | warnPipelineFallback (name : String)
  | bindVertexBuffers (first_binding : Nat) (buffer : Nat)
  | bindIndexBuffer (buffer : Nat)
  | bindDescriptorSets (set : Nat)
  | bindTextureDescriptors (tex : Nat)
  | updateCameraUniform (memory : Nat)
  | pushConstantsTime
  | pushConstantsMvp (model : Mat4) (color : Color)
  | pushConstantsLegacyMvp
  | drawIndexed (index_count instance_count : Nat)
  | renderEgui
  | endRenderPass
deriving DecidableEq, Repr

/-- Skip condition (src/vulkan_renderer_unified.rs:3738-3744): not instanced
with no transforms, or instanced with no instances. -/
def mesh_skipped (m : MeshEntry) : Bool :=
  (!m.use_instancing && m.transforms.isEmpty) ||
  (m.use_instancing && m.instance_count == 0)

/-- Pipeline-name resolution (src/vulkan_renderer_unified.rs:3747-3749):
mesh override, else "default". -/
def resolve_pipeline_name (m : MeshEntry) : String :=
  m.pipeline_name.getD "default"

/-- Pipeline lookup on a bind (src/vulkan_renderer_unified.rs:3763-3769):
an unknown name warns and falls back to the default pipeline. -/
def pipelineBindCmds (st : RendererState) (name : String) : List Cmd :=
  match st.pipelines.find? fun e => e.1 == name with
  | some e => [Cmd.bindPipeline e.2.1]
  | none => [Cmd.warnPipelineFallback name, Cmd.bindPipeline st.graphics_pipeline]

/-- Pipeline-layout lookup for push constants
(src/vulkan_renderer_unified.rs:3781-3785). -/
def pipeline_layout_for (st : RendererState) (name : String) : Nat :=
  match st.pipelines.find? fun e => e.1 == name with
  | some e => e.2.2
  | none => st.pipeline_layout

/-- Per-transform loop of the non-instanced path
(src/vulkan_renderer_unified.rs:3995-4022): one push-constant block and one
indexed draw with instance count 1 per transform. -/
def perTransformCmds (m : MeshEntry) : List Cmd :=
  m.transforms.foldr
    (fun t acc => Cmd.pushConstantsMvp t m.base_color :: Cmd.drawIndexed m.index_count 1 :: acc)
    []

/-- Texture descriptor binding chain shared by both paths
(src/vulkan_renderer_unified.rs:3868-3886 and :3974-3992): the mesh's own
texture resources, else the renderer's global ones, else nothing. -/
def textureDescriptorCmds (st : RendererState) (m : MeshEntry) : List Cmd :=
  match m.texture_resources with
  | some t => [Cmd.bindTextureDescriptors t]
  | none =>
    match st.textures with
    | some t => [Cmd.bindTextureDescriptors t]
    | none => []

/-- The loop body after the pipeline switch
(src/vulkan_renderer_unified.rs:3787-4023), for one drawn mesh. -/
def recordMeshBody (st : RendererState) (image_index : Nat) (m : MeshEntry) :
    List Cmd :=
  if m.use_instancing then
    [Cmd.bindVertexBuffers 0 m.vertex_buffer]
    ++ (match m.instance_buffer with
        | some ib => [Cmd.bindVertexBuffers 1 ib]
        | none => [])
    ++ [Cmd.bindIndexBuffer m.index_buffer]
    ++ (if m.is_skinned then
          (match m.camera_uniform_memory with
           | some mem => [Cmd.updateCameraUniform mem]
           | none => [])
          ++ (match m.skinned_descriptor_sets with
              | some sets =>
                if image_index < sets.length then
                  [Cmd.bindDescriptorSets (sets.getD image_index 0)]
                else []
              | none => [])
        else textureDescriptorCmds st m)
    ++ (if m.is_skinned then [Cmd.pushConstantsTime]
        else [Cmd.pushConstantsMvp idMat4 m.base_color])
    ++ [Cmd.drawIndexed m.index_count m.instance_count]
  else
    [Cmd.bindVertexBuffers 0 m.vertex_buffer, Cmd.bindIndexBuffer m.index_buffer]
    ++ (if m.is_skinned then
          (match m.skinned_descriptor_sets with
           | some sets => [Cmd.bindDescriptorSets (sets.getD image_index 0)]
           | none => [])
        else textureDescriptorCmds st m)
    ++ perTransformCmds m

/-- One iteration of the mesh loop
(src/vulkan_renderer_unified.rs:3737-4024): skip, resolve the pipeline name,
bind the pipeline only when it differs from the currently bound one, then
record the body. -/
def recordMesh (st : RendererState) (image_index : Nat) (cur : Option String)
    (m : MeshEntry) : Option String × List Cmd :=
  if mesh_skipped m then (cur, [])
  else
    let name := resolve_pipeline_name m
    if cur ≠ some name then
      (some name, pipelineBindCmds st name ++ recordMeshBody st image_index m)
    else
      (cur, recordMeshBody st image_index m)

/-- The mesh loop over the frame's ordered mesh list. -/
def recordMeshes (st : RendererState) (image_index : Nat) :
    Option String → List MeshEntry → Option String × List Cmd
  | cur, [] => (cur, [])
  | cur, m :: ms =>
    let r := recordMesh st image_index cur m
    let rest := recordMeshes st image_index r.1 ms
    (rest.1, r.2 ++ rest.2)

/-- The legacy raw-buffer fallback
(src/vulkan_renderer_unified.rs:4026-4073): only when the mesh registry is
empty and raw buffers exist; draws with `max(instance_count, 1)` instances;
emits no pipeline bind.  The fixed-transform push-constant payload (floats)
is opaque here. -/
def legacyFallbackCmds (st : RendererState) : List Cmd :=
  if st.meshes.isEmpty then
    match st.buffers with
    | some bufs =>
      [Cmd.bindVertexBuffers 0 bufs.vertex_buffer]
      ++ (match bufs.index_buffer with
          | some ib =>
            [Cmd.bindIndexBuffer ib, Cmd.pushConstantsLegacyMvp,
             Cmd.drawIndexed bufs.index_count (max st.instance_count 1)]
          | none => [])
    | none => []
  else []

/-- `record_command_buffer_multi_mesh_with_egui`
(src/vulkan_renderer_unified.rs:3675-4118): render pass setup, the mesh
loop starting with no pipeline bound, the legacy raw-buffer fallback when
the registry is empty, the optional egui pass, and render pass end. -/
def record_command_buffer_multi_mesh (st : RendererState) (image_index : Nat)
    (egui : Bool) : List Cmd :=
  [Cmd.beginRenderPass image_index, Cmd.setViewport, Cmd.setScissor]
  ++ (recordMeshes st image_index none st.meshes).2
  ++ legacyFallbackCmds st
  ++ (if egui then [Cmd.renderEgui] else [])
  ++ [Cmd.endRenderPass]

/-! ### Mesh registry operations -/

/-- In-place update of slot `i` (`self.meshes[i] = ...` / field writes). -/
def setMesh : List MeshEntry → Nat → (MeshEntry → MeshEntry) → List MeshEntry
  | [], _, _ => []
  | m :: rest, 0, f => f m :: rest
  | m :: rest, i + 1, f => m :: setMesh rest i f

theorem setMesh_length (l : List MeshEntry) :
    ∀ (i : Nat) (f : MeshEntry → MeshEntry), (setMesh l i f).length = l.length := by
  induction l with
  | nil => intro i f; rfl
  | cons m rest ih =>
    intro i f
    cases i with
    | zero => rfl
    | succ j => simp [setMesh, ih j f]

theorem setMesh_getElem_ne (l : List MeshEntry) :
    ∀ (i j : Nat) (f : MeshEntry → MeshEntry), j ≠ i →
      (setMesh l i f)[j]? = l[j]? := by
  induction l with
  | nil => intro i j f _; rfl
  | cons m rest ih =>
    intro i j f hne
    cases i with
    | zero =>
      cases j with
      | zero => exact absurd rfl hne
      | succ j0 => rfl
    | succ i0 =>
      cases j with
      | zero => simp [setMesh]
      | succ j0 => simpa [setMesh] using ih i0 j0 f (by omega)

theorem setMesh_getElem_eq (l : List MeshEntry) :
    ∀ (i : Nat) (f : MeshEntry → MeshEntry), i < l.length →
      (setMesh l i f)[i]? = l[i]?.map f := by
  induction l with
  | nil => intro i f h; simp at h
  | cons m rest ih =>
    intro i f h
    cases i with
    | zero => simp [setMesh]
    | succ i0 => simpa [setMesh] using ih i0 f (by simpa using h)

/-- `VulkanRenderer::add_mesh` (src/vulkan_renderer_unified.rs:1308-1359):
create pooled vertex/index buffers, push a fresh non-instanced entry, and
return its index `meshes.len() - 1`. -/
def add_mesh (st : RendererState) (mesh_data : MeshData) : RendererState × Nat :=
  let h := st.next_handle
  let entry : MeshEntry :=
    { vertex_buffer := h
      vertex_buffer_memory := none
      vertex_memory_block := some (h + 1)
      index_buffer := h + 2
      index_buffer_memory := none
      index_memory_block := some (h + 3)
      index_count := mesh_data.indices.length % 2 ^ 32
      transforms := []
      pipeline_name := none
      texture_resources := none
      instance_buffer := none
      instance_buffer_memory := none
      instance_memory_block := none
      instance_count := 0
      use_instancing := false
      base_color := whiteColor
      joint_matrices := none
      joint_buffer := none
      joint_buffer_memory := none
      is_skinned := false
      skinned_descriptor_pool := none
      skinned_descriptor_set_layout := none
      skinned_descriptor_sets := none
      camera_uniform_buffer := none
      camera_uniform_memory := none }
  ({ st with meshes := st.meshes ++ [entry], next_handle := h + 4 },
   st.meshes.length)

/-- `VulkanRenderer::add_mesh_instanced`
(src/vulkan_renderer_unified.rs:1720-1815): pooled vertex/index/instance
buffers, an instanced entry with `instance_count = positions.len()`
(`as u32`), optional pipeline name; texture loading is a TODO in the source
and always yields `None`. -/
def add_mesh_instanced (st : RendererState) (mesh_data : MeshData)
    (instance_positions : List (List Int)) (texture_path : Option String)
    (pipeline_name : Option String) : RendererState × Nat :=
  let h := st.next_handle
  let entry : MeshEntry :=
    { vertex_buffer := h
      vertex_buffer_memory := none
      vertex_memory_block := some (h + 1)
      index_buffer := h + 2
      index_buffer_memory := none
      index_memory_block := some (h + 3)
      index_count := mesh_data.indices.length % 2 ^ 32
      transforms := []
      pipeline_name := pipeline_name
      texture_resources := (match texture_path with
        | some _ => none
        | none => none)
      instance_buffer := some (h + 4)
      instance_buffer_memory := none
      instance_memory_block := some (h + 5)
      instance_count := instance_positions.length % 2 ^ 32
      use_instancing := true
      base_color := whiteColor
      joint_matrices := none
      joint_buffer := none
      joint_buffer_memory := none
      is_skinned := false
      skinned_descriptor_pool := none
      skinned_descriptor_set_layout := none
      skinned_descriptor_sets := none
      camera_uniform_buffer := none
      camera_uniform_memory := none }
  ({ st with meshes := st.meshes ++ [entry], next_handle := h + 6 },
   st.meshes.length)

/-- `VulkanRenderer::add_skinned_mesh_instanced`
(src/vulkan_renderer_unified.rs:1362-1565): directly-owned vertex/index
memory, an instance buffer, a 128-slot joint uniform buffer initialized from
the mesh's joint matrices, a camera uniform buffer, and one descriptor set
per swapchain image.  Device objects take consecutive fresh handles in
creation order. -/
def add_skinned_mesh_instanced (st : RendererState) (mesh_data : SkinnedMeshData)
    (instance_positions : List (List Int)) (pipeline_name : Option String) :
    RendererState × Nat :=
  let h := st.next_handle
  let entry : MeshEntry :=
    { vertex_buffer := h
      vertex_buffer_memory := some (h + 1)
      vertex_memory_block := none
      index_buffer := h + 2
      index_buffer_memory := some (h + 3)
      index_memory_block := none
      index_count := mesh_data.indices.length % 2 ^ 32
      transforms := []
      pipeline_name := pipeline_name
      texture_resources := none
      instance_buffer := some (h + 4)
      instance_buffer_memory := some (h + 5)
      instance_memory_block := none
      instance_count := instance_positions.length % 2 ^ 32
      use_instancing := true
      base_color := whiteColor
      joint_matrices := some mesh_data.joint_matrices
      joint_buffer := some (h + 6)
      joint_buffer_memory := some (h + 7)
      is_skinned := true
      skinned_descriptor_pool := some (h + 10)
      skinned_descriptor_set_layout := some (h + 11)
      skinned_descriptor_sets :=
        some ((List.range st.swapchain_image_count).map fun k => h + 12 + k)
      camera_uniform_buffer := some (h + 8)
      camera_uniform_memory := some (h + 9) }
  ({ st with
      meshes := st.meshes ++ [entry]
      next_handle := h + 12 + st.swapchain_image_count },
   st.meshes.length)

/-- `VulkanRenderer::replace_mesh` (src/vulkan_renderer_unified.rs:1608-1717):
out-of-range index is an error; otherwise the old vertex/index buffers are
destroyed, fresh directly-owned ones are created, `index_count` becomes the
new index array length (`as u32`), and every other field is moved over from
the old entry. -/
def replace_mesh (st : RendererState) (mesh_index : Nat) (mesh_data : MeshData) :
    Except String RendererState :=
  if mesh_index ≥ st.meshes.length then
    Except.error s!"Mesh index {mesh_index} out of bounds"
  else
    let h := st.next_handle
    Except.ok
      { st with
        next_handle := h + 4
        meshes := setMesh st.meshes mesh_index fun old =>
          { vertex_buffer := h
            vertex_buffer_memory := some (h + 1)
            vertex_memory_block := none
            index_buffer := h + 2
            index_buffer_memory := some (h + 3)
            index_memory_block := none
            index_count := mesh_data.indices.length % 2 ^ 32
            transforms := old.transforms
            pipeline_name := old.pipeline_name
            texture_resources := old.texture_resources
            instance_buffer := old.instance_buffer
            instance_buffer_memory := old.instance_buffer_memory
            instance_memory_block := old.instance_memory_block
            instance_count := old.instance_count
            use_instancing := old.use_instancing
            base_color := old.base_color
            joint_matrices := old.joint_matrices
            joint_buffer := old.joint_buffer
            joint_buffer_memory := old.joint_buffer_memory
            is_skinned := old.is_skinned
            skinned_descriptor_pool := old.skinned_descriptor_pool
            skinned_descriptor_set_layout := old.skinned_descriptor_set_layout
            skinned_descriptor_sets := old.skinned_descriptor_sets
            camera_uniform_buffer := old.camera_uniform_buffer
            camera_uniform_memory := old.camera_uniform_memory } }

/-- `VulkanRenderer::remove_mesh` (src/vulkan_renderer_unified.rs:1861-1963):
out-of-range index is a no-op; otherwise all of the slot's device objects are
destroyed and the slot is overwritten with the inert zeroed entry - the
vector is not shrunk, so indices stay stable. -/
def remove_mesh (st : RendererState) (mesh_index : Nat) : RendererState :=
  if mesh_index ≥ st.meshes.length then st
  else { st with meshes := setMesh st.meshes mesh_index fun _ => inertMeshEntry }

/-- The stored-matrix update loop of `update_mesh_joint_matrices`
(src/vulkan_renderer_unified.rs:1579-1585): `stored[i] = J[i]` for
`i < min(|stored|, |J|)`. -/
def overwrite_list : List Mat4 → List Mat4 → List Mat4
  | stored, [] => stored
  | [], _ => []
  | _ :: stored, j :: J => j :: overwrite_list stored J

/-- The entry-level effect of `update_mesh_joint_matrices`
(src/vulkan_renderer_unified.rs:1568-1606): no-op unless the mesh is skinned
with a joint buffer and memory; the stored matrices are overwritten
prefix-wise (the GPU-side mapped write is `write_joint_matrices` below). -/
def updateJointEntry (joint_matrices : List Mat4) (m : MeshEntry) : MeshEntry :=
  if !m.is_skinned || m.joint_buffer.isNone || m.joint_buffer_memory.isNone then m
  else { m with joint_matrices := m.joint_matrices.map fun stored =>
    overwrite_list stored joint_matrices }

/-- `VulkanRenderer::update_mesh_joint_matrices`
(src/vulkan_renderer_unified.rs:1568-1606): out-of-range index returns
without touching anything. -/
def update_mesh_joint_matrices (st : RendererState) (mesh_index : Nat)
    (joint_matrices : List Mat4) : RendererState :=
  if mesh_index < st.meshes.length then
    { st with meshes := setMesh st.meshes mesh_index (updateJointEntry joint_matrices) }
  else st

/-- `VulkanRenderer::update_mesh_transforms`
(src/vulkan_renderer_unified.rs:1854-1858). -/
def update_mesh_transforms (st : RendererState) (mesh_index : Nat)
    (transforms : List Mat4) : RendererState :=
  if mesh_index < st.meshes.length then
    { st with meshes := setMesh st.meshes mesh_index fun m =>
      { m with transforms := transforms } }
  else st

/-- `VulkanRenderer::update_mesh_instance_buffer`
(src/vulkan_renderer_unified.rs:1818-1851): out-of-range index is an error
(the state is untouched); otherwise `instance_count` is set to the new
position count (`as u32`) and the instance buffer contents rewritten. -/
def update_mesh_instance_buffer (st : RendererState) (mesh_index : Nat)
    (instance_positions : List (List Int)) : Except String RendererState :=
  if mesh_index ≥ st.meshes.length then Except.error "Invalid mesh index"
  else
    Except.ok { st with meshes := setMesh st.meshes mesh_index fun m =>
      { m with instance_count := instance_positions.length % 2 ^ 32 } }

/-- `VulkanRenderer::set_mesh_pipeline`
(src/vulkan_renderer_unified.rs:2018-2022). -/
def set_mesh_pipeline (st : RendererState) (mesh_index : Nat) (name : String) :
    RendererState :=
  if mesh_index < st.meshes.length then
    { st with meshes := setMesh st.meshes mesh_index fun m =>
      { m with pipeline_name := some name } }
  else st

/-- `VulkanRenderer::set_mesh_color`
(src/vulkan_renderer_unified.rs:2029-2033). -/
def set_mesh_color (st : RendererState) (mesh_index : Nat) (color : Color) :
    RendererState :=
  if mesh_index < st.meshes.length then
    { st with meshes := setMesh st.meshes mesh_index fun m =>
      { m with base_color := color } }
  else st

/-- `VulkanRenderer::get_mesh_count`
(src/vulkan_renderer_unified.rs:2103-2105). -/
def get_mesh_count (st : RendererState) : Nat := st.meshes.length

/-! ### The 128-slot joint uniform buffer (C7)

The joint uniform buffer holds 128 matrix slots
(src/vulkan_renderer_unified.rs:1420).  The mapped-write loop
(src/vulkan_renderer_unified.rs:1598-1601, likewise :1439-1442) writes
`J[i]` into slot `i` and stops at `i = 128`; slots it does not write keep
their previous contents.  The loop is modelled by structural recursion on
the buffer, the matrix list, and the remaining write budget. -/

def write_joints_upto : Nat → List Mat4 → List Mat4 → List Mat4
  | _, buffer, [] => buffer
  | 0, buffer, _ => buffer
  | _ + 1, [], _ => []
  | k + 1, _ :: buffer, j :: J => j :: write_joints_upto k buffer J

/-- One `update_mesh_joint_matrices` mapped write into the joint buffer. -/
def write_joint_matrices (buffer joint_matrices : List Mat4) : List Mat4 :=
  write_joints_upto 128 buffer joint_matrices

/-! ### Counting pipeline binds and draws -/

def isPipelineBindCmd : Cmd → Bool
  | .bindPipeline _ => true
  | _ => false

def countPipelineBinds (cmds : List Cmd) : Nat :=
  (cmds.filter isPipelineBindCmd).length

def isDrawCmd : Cmd → Bool
  | .drawIndexed _ _ => true
  | _ => false

/-- The indexed-draw commands of a recording, in order. -/
def drawCmds (cmds : List Cmd) : List Cmd := cmds.filter isDrawCmd

/-- The number of maximal runs of identical consecutive names, given the
name currently bound. -/
def pipelineRuns : Option String → List String → Nat
  | _, [] => 0
  | cur, n :: rest => (if cur = some n then 0 else 1) + pipelineRuns (some n) rest

theorem countPipelineBinds_append (l₁ l₂ : List Cmd) :
    countPipelineBinds (l₁ ++ l₂) = countPipelineBinds l₁ + countPipelineBinds l₂ := by
  simp [countPipelineBinds, List.filter_append]

theorem drawCmds_append (l₁ l₂ : List Cmd) :
    drawCmds (l₁ ++ l₂) = drawCmds l₁ ++ drawCmds l₂ := by
  simp [drawCmds, List.filter_append]

theorem filter_pipelineBind_perTransform (m : MeshEntry) :
    (perTransformCmds m).filter isPipelineBindCmd = [] := by
  unfold perTransformCmds
  induction m.transforms with
  | nil => rfl
  | cons t ts ih =>
    simpa [List.filter, isPipelineBindCmd] using ih

theorem filter_draw_perTransform (m : MeshEntry) :
    (perTransformCmds m).filter isDrawCmd =
      m.transforms.map fun _ => Cmd.drawIndexed m.index_count 1 := by
  unfold perTransformCmds
  induction m.transforms with
  | nil => rfl
  | cons t ts ih =>
    simpa [List.filter, isDrawCmd] using ih

theorem filter_pipelineBind_texture (st : RendererState) (m : MeshEntry) :
    (textureDescriptorCmds st m).filter isPipelineBindCmd = [] := by
  unfold textureDescriptorCmds
  cases m.texture_resources <;> cases st.textures <;> rfl

theorem filter_draw_texture (st : RendererState) (m : MeshEntry) :
    (textureDescriptorCmds st m).filter isDrawCmd = [] := by
  unfold textureDescriptorCmds
  cases m.texture_resources <;> cases st.textures <;> rfl

theorem countPipelineBinds_body (st : RendererState) (ii : Nat) (m : MeshEntry) :
    countPipelineBinds (recordMeshBody st ii m) = 0 := by
  unfold recordMeshBody countPipelineBinds
  cases hinst : m.use_instancing <;>
    cases hib : m.instance_buffer <;>
    cases hsk : m.is_skinned <;>
    cases hcm : m.camera_uniform_memory <;>
    cases hsd : m.skinned_descriptor_sets <;>
    simp [List.filter_append, filter_pipelineBind_perTransform,
      filter_pipelineBind_texture, List.filter, isPipelineBindCmd,
      apply_ite (List.filter isPipelineBindCmd)]

theorem drawCmds_body (st : RendererState) (ii : Nat) (m : MeshEntry) :
    drawCmds (recordMeshBody st ii m) =
      if m.use_instancing then [Cmd.drawIndexed m.index_count m.instance_count]
      else m.transforms.map fun _ => Cmd.drawIndexed m.index_count 1 := by
  unfold recordMeshBody drawCmds
  cases hinst : m.use_instancing <;>
    cases hib : m.instance_buffer <;>
    cases hsk : m.is_skinned <;>
    cases hcm : m.camera_uniform_memory <;>
    cases hsd : m.skinned_descriptor_sets <;>
    simp [List.filter_append, filter_draw_perTransform, filter_draw_texture,
      List.filter, isDrawCmd, apply_ite (List.filter isDrawCmd)]

theorem countPipelineBinds_bindCmds (st : RendererState) (name : String) :
    countPipelineBinds (pipelineBindCmds st name) = 1 := by
  unfold pipelineBindCmds
  cases h : st.pipelines.find? fun e => e.1 == name <;>
    simp [countPipelineBinds, List.filter, isPipelineBindCmd]

theorem drawCmds_bindCmds (st : RendererState) (name : String) :
    drawCmds (pipelineBindCmds st name) = [] := by
  unfold pipelineBindCmds
  cases h : st.pipelines.find? fun e => e.1 == name <;>
    simp [drawCmds, List.filter, isDrawCmd]

theorem recordMesh_cur (st : RendererState) (ii : Nat) (cur : Option String)
    (m : MeshEntry) :
    (recordMesh st ii cur m).1 =
      if mesh_skipped m then cur else some (resolve_pipeline_name m) := by
  unfold recordMesh
  by_cases h : mesh_skipped m
  · simp [h]
  · by_cases hc : cur = some (resolve_pipeline_name m) <;> simp [h, hc]

theorem recordMesh_bindCount (st : RendererState) (ii : Nat)
    (cur : Option String) (m : MeshEntry) :
    countPipelineBinds (recordMesh st ii cur m).2 =
      if mesh_skipped m then 0
      else if cur = some (resolve_pipeline_name m) then 0 else 1 := by
  unfold recordMesh
  by_cases h : mesh_skipped m
  · simp [h, countPipelineBinds]
  · by_cases hc : cur = some (resolve_pipeline_name m) <;>
      simp [h, hc, countPipelineBinds_append, countPipelineBinds_body st ii m,
        countPipelineBinds_bindCmds]

theorem recordMesh_draws (st : RendererState) (ii : Nat) (cur : Option String)
    (m : MeshEntry) :
    drawCmds (recordMesh st ii cur m).2 =
      if mesh_skipped m then []
      else if m.use_instancing then [Cmd.drawIndexed m.index_count m.instance_count]
      else m.transforms.map fun _ => Cmd.drawIndexed m.index_count 1 := by
  unfold recordMesh
  by_cases h : mesh_skipped m
  · simp [h, drawCmds]
  · by_cases hc : cur = some (resolve_pipeline_name m) <;>
      simp [h, hc, drawCmds_append, drawCmds_body st ii m, drawCmds_bindCmds]

theorem recordMeshes_bindCount (st : RendererState) (ii : Nat) :
    ∀ (ms : List MeshEntry) (cur : Option String),
      countPipelineBinds (recordMeshes st ii cur ms).2 =
        pipelineRuns cur ((ms.filter fun m => !mesh_skipped m).map
          resolve_pipeline_name) := by
  intro ms
  induction ms with
  | nil => intro cur; rfl
  | cons m rest ih =>
    intro cur
    show countPipelineBinds ((recordMesh st ii cur m).2 ++
      (recordMeshes st ii (recordMesh st ii cur m).1 rest).2) = _
    rw [countPipelineBinds_append, recordMesh_bindCount, recordMesh_cur, ih]
    by_cases h : mesh_skipped m
    · simp [h, List.filter_cons]
    · by_cases hc : cur = some (resolve_pipeline_name m) <;>
        simp [h, hc, List.filter_cons, pipelineRuns]

theorem countPipelineBinds_fallback (st : RendererState) :
    countPipelineBinds (legacyFallbackCmds st) = 0 := by
  unfold legacyFallbackCmds
  cases hempty : st.meshes.isEmpty <;> try rfl
  cases hb : st.buffers with
  | none => rfl
  | some bufs =>
    cases hib : bufs.index_buffer <;>
      simp [hib, countPipelineBinds, List.filter, isPipelineBindCmd]

/-! ### Claim theorems C4, C5, C8, C10, C7 -/

/-- C4.  Pipeline-switch minimization: the number of pipeline-bind commands
in one recorded frame equals the number of maximal runs of identical
consecutive resolved pipeline names (mesh override, else "default") over the
meshes that are drawn (a skipped mesh records no commands at all), not the
number of meshes drawn. -/
theorem pipeline_switch_minimization (st : RendererState) (image_index : Nat)
    (egui : Bool) :
    countPipelineBinds (record_command_buffer_multi_mesh st image_index egui) =
      pipelineRuns none ((st.meshes.filter fun m => !mesh_skipped m).map
        resolve_pipeline_name) := by
  unfold record_command_buffer_multi_mesh
  rw [countPipelineBinds_append, countPipelineBinds_append,
    countPipelineBinds_append, countPipelineBinds_append,
    recordMeshes_bindCount, countPipelineBinds_fallback]
  have hpre : countPipelineBinds
      [Cmd.beginRenderPass image_index, Cmd.setViewport, Cmd.setScissor] = 0 := rfl
  have hegui : countPipelineBinds (if egui then [Cmd.renderEgui] else []) = 0 := by
    cases egui <;> rfl
  have hend : countPipelineBinds [Cmd.endRenderPass] = 0 := rfl
  rw [hpre, hegui, hend]
  omega

/-- C5.  Per-mesh draw calls: a mesh records no draw when skipped (not
instanced with empty transforms, or instanced with zero instances); an
instanced mesh records exactly one indexed-instanced draw with the mesh's
full `instance_count`; a non-instanced mesh records one indexed draw per
transform, each with instance count 1.  `add_mesh_instanced` with `ps`
positions sets `instance_count = ps.length` (as u32), so 1000 positions give
one draw with instance count 1000. -/
theorem per_mesh_draw_calls :
    (∀ (st : RendererState) (ii : Nat) (cur : Option String) (m : MeshEntry),
      drawCmds (recordMesh st ii cur m).2 =
        if mesh_skipped m then []
        else if m.use_instancing then
          [Cmd.drawIndexed m.index_count m.instance_count]
        else m.transforms.map fun _ => Cmd.drawIndexed m.index_count 1) ∧
    (∀ (st : RendererState) (d : MeshData) (ps : List (List Int))
        (tex nm : Option String),
      ∃ e, (add_mesh_instanced st d ps tex nm).1.meshes = st.meshes ++ [e] ∧
        e.instance_count = ps.length % 2 ^ 32 ∧ e.use_instancing = true ∧
        e.index_count = d.indices.length % 2 ^ 32) := by
  refine ⟨fun st ii cur m => recordMesh_draws st ii cur m, ?_⟩
  intro st d ps tex nm
  exact ⟨_, rfl, rfl, rfl, rfl⟩

/-- C8.  Resource-lookup degradation: resolving an unknown pipeline name
during recording emits the warning and binds the default pipeline, and the
mesh is still drawn; `update_mesh_joint_matrices` and
`update_mesh_transforms` with an out-of-range index leave the renderer state
unchanged, and `update_mesh_instance_buffer` returns an error without
touching the state. -/
theorem resource_lookup_degradation :
    (∀ (st : RendererState) (ii : Nat) (cur : Option String) (m : MeshEntry)
        (name : String),
      m.pipeline_name = some name →
      (st.pipelines.find? fun e => e.1 == name) = none →
      mesh_skipped m = false →
      cur ≠ some name →
      (recordMesh st ii cur m).2 =
        Cmd.warnPipelineFallback name :: Cmd.bindPipeline st.graphics_pipeline ::
          recordMeshBody st ii m ∧
      drawCmds (recordMesh st ii cur m).2 ≠ []) ∧
    (∀ (st : RendererState) (i : Nat) (J : List Mat4), st.meshes.length ≤ i →
      update_mesh_joint_matrices st i J = st) ∧
    (∀ (st : RendererState) (i : Nat) (ts : List Mat4), st.meshes.length ≤ i →
      update_mesh_transforms st i ts = st) ∧
    (∀ (st : RendererState) (i : Nat) (ps : List (List Int)),
      st.meshes.length ≤ i →
      update_mesh_instance_buffer st i ps = Except.error "Invalid mesh index") := by
  refine ⟨?_, ?_, ?_, ?_⟩
  · intro st ii cur m name hnm hfind hskip hcur
    have hname : resolve_pipeline_name m = name := by
      simp [resolve_pipeline_name, hnm]
    constructor
    · unfold recordMesh
      rw [if_neg (by simp [hskip]), hname, if_pos hcur]
      unfold pipelineBindCmds
      rw [hfind]
      rfl
    · rw [recordMesh_draws, if_neg (by simp [hskip])]
      cases hinst : m.use_instancing with
      | true => simp
      | false =>
        have hts : m.transforms ≠ [] := by
          unfold mesh_skipped at hskip
          simp [hinst] at hskip
          simpa [List.isEmpty_iff] using hskip
        simp [hts]
  · intro st i J h
    unfold update_mesh_joint_matrices
    rw [if_neg (by omega)]
  · intro st i ts h
    unfold update_mesh_transforms
    rw [if_neg (by omega)]
  · intro st i ps h
    unfold update_mesh_instance_buffer
    rw [if_pos (by omega)]

/-- A fresh renderer with an empty registry and no pipelines, used by the
concrete witnesses. -/
def emptyRenderer : RendererState :=
  { pipelines := []
    graphics_pipeline := 1
    pipeline_layout := 2
    textures := none
    buffers := none
    instance_count := 0
    meshes := []
    swapchain_image_count := 2
    next_handle := 3 }

/-- A drawable instanced mesh entry naming an unknown pipeline, used by the
C8 witness. -/
def c8Mesh : MeshEntry :=
  { inertMeshEntry with
    use_instancing := true
    instance_count := 1
    index_count := 3
    pipeline_name := some "missing-pipeline" }

/-- Witness for C8: recording `c8Mesh` against a renderer with no pipelines
falls back to the default pipeline and still draws; out-of-range update
calls at index 5 on the empty renderer do nothing. -/
theorem resource_lookup_degradation_witness :
    ((recordMesh emptyRenderer 0 none c8Mesh).2 =
      Cmd.warnPipelineFallback "missing-pipeline" ::
        Cmd.bindPipeline emptyRenderer.graphics_pipeline ::
        recordMeshBody emptyRenderer 0 c8Mesh ∧
      drawCmds (recordMesh emptyRenderer 0 none c8Mesh).2 ≠ []) ∧
    update_mesh_joint_matrices emptyRenderer 5 [] = emptyRenderer ∧
    update_mesh_transforms emptyRenderer 5 [] = emptyRenderer ∧
    update_mesh_instance_buffer emptyRenderer 5 [] =
      Except.error "Invalid mesh index" :=
  ⟨resource_lookup_degradation.1 emptyRenderer 0 none c8Mesh "missing-pipeline"
      rfl rfl (by decide) (by decide),
   resource_lookup_degradation.2.1 emptyRenderer 5 [] (by decide),
   resource_lookup_degradation.2.2.1 emptyRenderer 5 [] (by decide),
   resource_lookup_degradation.2.2.2 emptyRenderer 5 [] (by decide)⟩

/-- C10.  `replace_mesh` on an in-range index succeeds and changes only the
entry's vertex/index buffers, their backing memory, and `index_count` (set
to the new index array length); transforms, pipeline name, texture
resources, instancing state, base color and all skinning fields are moved
over from the old entry, and every other slot and the mesh count are
unchanged. -/
theorem replace_mesh_frame (st : RendererState) (i : Nat) (d : MeshData)
    (old : MeshEntry) (hi : st.meshes[i]? = some old)
    (hlen : d.indices.length < 2 ^ 32) :
    ∃ st', replace_mesh st i d = Except.ok st' ∧
      st'.meshes.length = st.meshes.length ∧
      (∀ j, j ≠ i → st'.meshes[j]? = st.meshes[j]?) ∧
      ∃ e, st'.meshes[i]? = some e ∧
        e.index_count = d.indices.length ∧
        e.vertex_buffer = st.next_handle ∧
        e.vertex_buffer_memory = some (st.next_handle + 1) ∧
        e.vertex_memory_block = none ∧
        e.index_buffer = st.next_handle + 2 ∧
        e.index_buffer_memory = some (st.next_handle + 3) ∧
        e.index_memory_block = none ∧
        e.transforms = old.transforms ∧
        e.pipeline_name = old.pipeline_name ∧
        e.texture_resources = old.texture_resources ∧
        e.instance_buffer = old.instance_buffer ∧
        e.instance_buffer_memory = old.instance_buffer_memory ∧
        e.instance_memory_block = old.instance_memory_block ∧
        e.instance_count = old.instance_count ∧
        e.use_instancing = old.use_instancing ∧
        e.base_color = old.base_color ∧
        e.joint_matrices = old.joint_matrices ∧
        e.joint_buffer = old.joint_buffer ∧
        e.joint_buffer_memory = old.joint_buffer_memory ∧
        e.is_skinned = old.is_skinned ∧
        e.skinned_descriptor_pool = old.skinned_descriptor_pool ∧
        e.skinned_descriptor_set_layout = old.skinned_descriptor_set_layout ∧
        e.skinned_descriptor_sets = old.skinned_descriptor_sets ∧
        e.camera_uniform_buffer = old.camera_uniform_buffer ∧
        e.camera_uniform_memory = old.camera_uniform_memory := by
  have hilt : i < st.meshes.length := by
    rcases List.getElem?_eq_some.mp hi with ⟨hlt, -⟩
    exact hlt
  unfold replace_mesh
  rw [if_neg (by omega)]
  refine ⟨_, rfl, setMesh_length st.meshes i _, ?_, ?_⟩
  · intro j hj
    exact setMesh_getElem_ne st.meshes i j _ hj
  · refine ⟨{ vertex_buffer := st.next_handle
              vertex_buffer_memory := some (st.next_handle + 1)
              vertex_memory_block := none
              index_buffer := st.next_handle + 2
              index_buffer_memory := some (st.next_handle + 3)
              index_memory_block := none
              index_count := d.indices.length % 2 ^ 32
              transforms := old.transforms
              pipeline_name := old.pipeline_name
              texture_resources := old.texture_resources
              instance_buffer := old.instance_buffer
              instance_buffer_memory := old.instance_buffer_memory
              instance_memory_block := old.instance_memory_block
              instance_count := old.instance_count
              use_instancing := old.use_instancing
              base_color := old.base_color
              joint_matrices := old.joint_matrices
              joint_buffer := old.joint_buffer
              joint_buffer_memory := old.joint_buffer_memory
              is_skinned := old.is_skinned
              skinned_descriptor_pool := old.skinned_descriptor_pool
              skinned_descriptor_set_layout := old.skinned_descriptor_set_layout
              skinned_descriptor_sets := old.skinned_descriptor_sets
              camera_uniform_buffer := old.camera_uniform_buffer
              camera_uniform_memory := old.camera_uniform_memory }, ?_,
      Nat.mod_eq_of_lt hlen, rfl, rfl, rfl, rfl, rfl, rfl, rfl,
      rfl, rfl, rfl, rfl, rfl, rfl, rfl, rfl, rfl, rfl, rfl, rfl, rfl, rfl,
      rfl, rfl, rfl⟩
    rw [setMesh_getElem_eq st.meshes i _ hilt, hi]
    rfl

/-- A one-mesh renderer used by the C10 witness. -/
def c10State : RendererState := (add_mesh emptyRenderer ⟨[], [0, 1, 2]⟩).1

/-- The entry occupying slot 0 of `c10State`. -/
def c10Old : MeshEntry :=
  { inertMeshEntry with
    vertex_buffer := 3
    vertex_memory_block := some 4
    index_buffer := 5
    index_memory_block := some 6
    index_count := 3 }

/-- Witness for C10: replacing mesh 0 of a one-mesh renderer with a
6-index mesh. -/
theorem replace_mesh_frame_witness :
    ∃ st', replace_mesh c10State 0 ⟨[], [0, 1, 2, 0, 2, 3]⟩ = Except.ok st' ∧
      st'.meshes.length = c10State.meshes.length ∧
      (∀ j, j ≠ 0 → st'.meshes[j]? = c10State.meshes[j]?) ∧
      ∃ e, st'.meshes[0]? = some e ∧
        e.index_count = (⟨[], [0, 1, 2, 0, 2, 3]⟩ : MeshData).indices.length ∧
        e.vertex_buffer = c10State.next_handle ∧
        e.vertex_buffer_memory = some (c10State.next_handle + 1) ∧
        e.vertex_memory_block = none ∧
        e.index_buffer = c10State.next_handle + 2 ∧
        e.index_buffer_memory = some (c10State.next_handle + 3) ∧
        e.index_memory_block = none ∧
        e.transforms = c10Old.transforms ∧
        e.pipeline_name = c10Old.pipeline_name ∧
        e.texture_resources = c10Old.texture_resources ∧
        e.instance_buffer = c10Old.instance_buffer ∧
        e.instance_buffer_memory = c10Old.instance_buffer_memory ∧
        e.instance_memory_block = c10Old.instance_memory_block ∧
        e.instance_count = c10Old.instance_count ∧
        e.use_instancing = c10Old.use_instancing ∧
        e.base_color = c10Old.base_color ∧
        e.joint_matrices = c10Old.joint_matrices ∧
        e.joint_buffer = c10Old.joint_buffer ∧
        e.joint_buffer_memory = c10Old.joint_buffer_memory ∧
        e.is_skinned = c10Old.is_skinned ∧
        e.skinned_descriptor_pool = c10Old.skinned_descriptor_pool ∧
        e.skinned_descriptor_set_layout = c10Old.skinned_descriptor_set_layout ∧
        e.skinned_descriptor_sets = c10Old.skinned_descriptor_sets ∧
        e.camera_uniform_buffer = c10Old.camera_uniform_buffer ∧
        e.camera_uniform_memory = c10Old.camera_uniform_memory :=
  replace_mesh_frame c10State 0 ⟨[], [0, 1, 2, 0, 2, 3]⟩ c10Old (by decide) (by decide)

/-- Characterization of the bounded joint-buffer write: the first
`min k (min |J| |buf|)` slots take the new matrices, the rest keep their
previous contents. -/
theorem write_joints_upto_spec :
    ∀ (J : List Mat4) (k : Nat) (buf : List Mat4),
      write_joints_upto k buf J =
        J.take (min k (min J.length buf.length)) ++
          buf.drop (min k (min J.length buf.length)) := by
  intro J
  induction J with
  | nil => intro k buf; cases k <;> cases buf <;> simp [write_joints_upto]
  | cons j J ih =>
    intro k buf
    cases k with
    | zero => simp [write_joints_upto]
    | succ k0 =>
      cases buf with
      | nil => simp [write_joints_upto]
      | cons b buf0 =>
        have hmin : min (k0 + 1) (min (J.length + 1) (buf0.length + 1)) =
            min k0 (min J.length buf0.length) + 1 := by omega
        simp only [write_joints_upto, ih k0 buf0, List.length_cons, hmin,
          List.take_succ_cons, List.drop_succ_cons, List.cons_append]

/-- C7 (counterexample).  A skinned mesh is created with one nonzero joint
matrix (the all-2 matrix) written into a zero-initialized 128-slot buffer;
updating with the empty list `J = []` and reading back does not give `J`
zero-padded to 128 entries - slot 0 still holds the old nonzero matrix. -/
theorem joint_matrix_roundtrip_counterexample :
    write_joint_matrices
        (write_joint_matrices (List.replicate 128 zeroMat4) [List.replicate 16 2]) [] ≠
      ([] : List Mat4).take 128 ++
        List.replicate (128 - ([] : List Mat4).length) zeroMat4 := by
  decide

/-- C7 (amended).  Writing joint matrices `J` into a 128-slot joint buffer
and reading the buffer back yields `J` truncated to 128 entries, with the
slots beyond `|J|` retaining their previous contents (not zero-padded);
entries of `J` beyond index 127 are silently dropped, and the buffer stays
exactly 128 entries long. -/
theorem joint_matrix_roundtrip_amended (buffer J : List Mat4)
    (h : buffer.length = 128) :
    write_joint_matrices buffer J =
      J.take 128 ++ buffer.drop (min J.length 128) ∧
    (write_joint_matrices buffer J).length = 128 := by
  have hspec := write_joints_upto_spec J 128 buffer
  rw [h] at hspec
  have hmin : min 128 (min J.length 128) = min J.length 128 := by omega
  rw [hmin] at hspec
  have htake : J.take (min J.length 128) = J.take 128 := by
    rw [List.take_eq_take]
    omega
  constructor
  · rw [write_joint_matrices, hspec, htake]
  · rw [write_joint_matrices, hspec]
    have h1 : (J.take (min J.length 128)).length = min J.length 128 := by
      rw [List.length_take]
      omega
    have h2 : (buffer.drop (min J.length 128)).length =
        128 - min J.length 128 := by
      simp [h]
    rw [List.length_append, h1, h2]
    omega

/-- Witness for C7 (amended): one nonzero matrix written over a
zero-initialized buffer. -/
theorem joint_matrix_roundtrip_amended_witness :
    write_joint_matrices (List.replicate 128 zeroMat4) [List.replicate 16 2] =
      ([List.replicate 16 2] : List Mat4).take 128 ++
        (List.replicate 128 zeroMat4).drop
          (min ([List.replicate 16 2] : List Mat4).length 128) ∧
    (write_joint_matrices (List.replicate 128 zeroMat4)
      [List.replicate 16 2]).length = 128 :=
  joint_matrix_roundtrip_amended (List.replicate 128 zeroMat4)
    [List.replicate 16 2] (by simp)

/-! ### Mesh index stability (C6)

The registry operations are run as a trace.  A ghost identifier list `ids`
tracks, per slot, which logical mesh occupies it: every add appends a fresh
identifier, `remove_mesh` clears the slot's identifier, and every other
operation (replace/update/set) keeps it - `replace_mesh` swaps buffer
contents in place, which the spec counts as the same logical mesh. -/

inductive MeshOp where
  | add (d : MeshData)
  | addInstanced (d : MeshData) (ps : List (List Int)) (tex : Option String)
      (name : Option String)
  | addSkinned (d : SkinnedMeshData) (ps : List (List Int)) (name : Option String)
  | replace (i : Nat) (d : MeshData)
  | updateTransforms (i : Nat) (ts : List Mat4)
  | updateJoints (i : Nat) (J : List Mat4)
  | updateInstances (i : Nat) (ps : List (List Int))
  | setPipeline (i : Nat) (name : String)
  | setColor (i : Nat) (c : Color)
  | remove (i : Nat)
deriving DecidableEq

/-- The renderer-state effect of one registry operation; fallible operations
leave the state unchanged on error (the Rust caller keeps `&mut self`). -/
def applyMeshOp (st : RendererState) : MeshOp → RendererState
  | .add d => (add_mesh st d).1
  | .addInstanced d ps tex name => (add_mesh_instanced st d ps tex name).1
  | .addSkinned d ps name => (add_skinned_mesh_instanced st d ps name).1
  | .replace i d =>
    match replace_mesh st i d with
    | .ok st' => st'
    | .error _ => st
  | .updateTransforms i ts => update_mesh_transforms st i ts
  | .updateJoints i J => update_mesh_joint_matrices st i J
  | .updateInstances i ps =>
    match update_mesh_instance_buffer st i ps with
    | .ok st' => st'
    | .error _ => st
  | .setPipeline i name => set_mesh_pipeline st i name
  | .setColor i c => set_mesh_color st i c
  | .remove i => remove_mesh st i

/-- Ghost identifier bookkeeping for one operation. -/
def idStep (ids : List (Option Nat)) (nid : Nat) : MeshOp → List (Option Nat) × Nat
  | .add _ => (ids ++ [some nid], nid + 1)
  | .addInstanced _ _ _ _ => (ids ++ [some nid], nid + 1)
  | .addSkinned _ _ _ => (ids ++ [some nid], nid + 1)
  | .remove i => (ids.set i none, nid)
  | _ => (ids, nid)

/-- Run a trace of registry operations with ghost identifiers. -/
def meshRun : List MeshOp → RendererState × List (Option Nat) × Nat →
    RendererState × List (Option Nat) × Nat
  | [], s => s
  | op :: ops, s =>
    meshRun ops (applyMeshOp s.1 op, (idStep s.2.1 s.2.2 op).1,
      (idStep s.2.1 s.2.2 op).2)

/-- Well-formed ghost identifiers: all below the fresh counter, and no
identifier occupies two slots. -/
def IdsWF (ids : List (Option Nat)) (nid : Nat) : Prop :=
  (∀ (j k : Nat), ids[j]? = some (some k) → k < nid) ∧
  (∀ (j j' k : Nat), ids[j]? = some (some k) → ids[j']? = some (some k) → j = j')

theorem applyMeshOp_length (st : RendererState) (op : MeshOp) :
    st.meshes.length ≤ (applyMeshOp st op).meshes.length := by
  cases op with
  | add d => simp [applyMeshOp, add_mesh]
  | addInstanced d ps tex name => simp [applyMeshOp, add_mesh_instanced]
  | addSkinned d ps name => simp [applyMeshOp, add_skinned_mesh_instanced]
  | replace i d =>
    simp only [applyMeshOp, replace_mesh]
    by_cases h : i ≥ st.meshes.length
    · rw [if_pos h]
    · rw [if_neg h]
      simp [setMesh_length]
  | updateTransforms i ts =>
    simp only [applyMeshOp, update_mesh_transforms]
    split <;> simp [setMesh_length]
  | updateJoints i J =>
    simp only [applyMeshOp, update_mesh_joint_matrices]
    split <;> simp [setMesh_length]
  | updateInstances i ps =>
    simp only [applyMeshOp, update_mesh_instance_buffer]
    by_cases h : i ≥ st.meshes.length
    · rw [if_pos h]
    · rw [if_neg h]
      simp [setMesh_length]
  | setPipeline i name =>
    simp only [applyMeshOp, set_mesh_pipeline]
    split <;> simp [setMesh_length]
  | setColor i c =>
    simp only [applyMeshOp, set_mesh_color]
    split <;> simp [setMesh_length]
  | remove i =>
    simp only [applyMeshOp, remove_mesh]
    split <;> simp [setMesh_length]

theorem idStep_stable (ids : List (Option Nat)) (nid : Nat) (op : MeshOp)
    (j : Nat) (v : Option Nat) (hj : ids[j]? = some v) :
    (idStep ids nid op).1[j]? = some v ∨ (idStep ids nid op).1[j]? = some none := by
  have hjlt : j < ids.length := by
    rcases List.getElem?_eq_some.mp hj with ⟨hlt, -⟩
    exact hlt
  cases op with
  | add d => exact Or.inl ((List.getElem?_append_left hjlt).trans hj)
  | addInstanced d ps tex name =>
    exact Or.inl ((List.getElem?_append_left hjlt).trans hj)
  | addSkinned d ps name =>
    exact Or.inl ((List.getElem?_append_left hjlt).trans hj)
  | remove i =>
    by_cases hij : j = i
    · subst hij
      exact Or.inr (List.getElem?_set_self hjlt)
    · exact Or.inl ((List.getElem?_set_ne (fun h => hij h.symm)).trans hj)
  | replace i d => exact Or.inl hj
  | updateTransforms i ts => exact Or.inl hj
  | updateJoints i J => exact Or.inl hj
  | updateInstances i ps => exact Or.inl hj
  | setPipeline i name => exact Or.inl hj
  | setColor i c => exact Or.inl hj

theorem getElem?_append_singleton (ids : List (Option Nat)) (x : Option Nat)
    (j : Nat) :
    (ids ++ [x])[j]? =
      if j < ids.length then ids[j]?
      else if j = ids.length then some x else none := by
  by_cases h1 : j < ids.length
  · rw [if_pos h1]
    exact List.getElem?_append_left h1
  · rw [if_neg h1]
    by_cases h2 : j = ids.length
    · subst h2
      rw [if_pos rfl]
      rw [List.getElem?_append_right (le_refl _)]
      simp
    · rw [if_neg h2]
      rw [List.getElem?_append_right (by omega)]
      have : j - ids.length ≥ 1 := by omega
      simp [List.getElem?_eq_none_iff]
      omega

theorem idStep_fresh (ids : List (Option Nat)) (nid : Nat) (op : MeshOp)
    (h : IdsWF ids nid) :
    IdsWF (idStep ids nid op).1 (idStep ids nid op).2 ∧
    nid ≤ (idStep ids nid op).2 ∧
    ∀ (j k : Nat), (idStep ids nid op).1[j]? = some (some k) →
      ids[j]? = some (some k) ∨ nid ≤ k := by
  obtain ⟨hbound, hinj⟩ := h
  have hadd : IdsWF (ids ++ [some nid]) (nid + 1) ∧ nid ≤ nid + 1 ∧
      ∀ (j k : Nat), (ids ++ [some nid])[j]? = some (some k) →
        ids[j]? = some (some k) ∨ nid ≤ k := by
    refine ⟨⟨?_, ?_⟩, by omega, ?_⟩
    · intro j k hk
      rw [getElem?_append_singleton] at hk
      split at hk
      · exact lt_trans (hbound j k hk) (by omega)
      · split at hk
        · injection hk with hk1
          injection hk1 with hk2
          omega
        · cases hk
    · intro j j' k hk hk'
      rw [getElem?_append_singleton] at hk hk'
      split at hk
      · split at hk'
        · exact hinj j j' k hk hk'
        · split at hk'
          · injection hk' with h1
            injection h1 with h2
            have := hbound j k hk
            omega
          · cases hk'
      · split at hk
        · split at hk'
          · injection hk with h1
            injection h1 with h2
            have := hbound j' k hk'
            omega
          · split at hk'
            · omega
            · cases hk'
        · cases hk
    · intro j k hk
      rw [getElem?_append_singleton] at hk
      split at hk
      · exact Or.inl hk
      · split at hk
        · injection hk with h1
          injection h1 with h2
          omega
        · cases hk
  have hkeep : IdsWF ids nid ∧ nid ≤ nid ∧
      ∀ (j k : Nat), ids[j]? = some (some k) → ids[j]? = some (some k) ∨ nid ≤ k :=
    ⟨⟨hbound, hinj⟩, le_refl _, fun j k hk => Or.inl hk⟩
  cases op with
  | add d => exact hadd
  | addInstanced d ps tex name => exact hadd
  | addSkinned d ps name => exact hadd
  | remove i =>
    simp only [idStep]
    refine ⟨⟨?_, ?_⟩, le_refl _, ?_⟩
    · intro j k hk
      by_cases hij : j = i
      · subst hij
        by_cases hlt : j < ids.length
        · rw [List.getElem?_set_self hlt] at hk
          cases hk
        · rw [List.set_eq_of_length_le (by omega)] at hk
          exact hbound j k hk
      · rw [List.getElem?_set_ne (fun hh => hij hh.symm)] at hk
        exact hbound j k hk
    · intro j j' k hk hk'
      by_cases hij : j = i
      · subst hij
        by_cases hlt : j < ids.length
        · rw [List.getElem?_set_self hlt] at hk
          cases hk
        · rw [List.set_eq_of_length_le (by omega)] at hk hk'
          exact hinj j j' k hk hk'
      · rw [List.getElem?_set_ne (fun hh => hij hh.symm)] at hk
        by_cases hij' : j' = i
        · subst hij'
          by_cases hlt : j' < ids.length
          · rw [List.getElem?_set_self hlt] at hk'
            cases hk'
          · rw [List.set_eq_of_length_le (by omega)] at hk'
            exact hinj j j' k hk hk'
        · rw [List.getElem?_set_ne (fun hh => hij' hh.symm)] at hk'
          exact hinj j j' k hk hk'
    · intro j k hk
      by_cases hij : j = i
      · subst hij
        by_cases hlt : j < ids.length
        · rw [List.getElem?_set_self hlt] at hk
          cases hk
        · rw [List.set_eq_of_length_le (by omega)] at hk
          exact Or.inl hk
      · rw [List.getElem?_set_ne (fun hh => hij hh.symm)] at hk
        exact Or.inl hk
  | replace i d => exact hkeep
  | updateTransforms i ts => exact hkeep
  | updateJoints i J => exact hkeep
  | updateInstances i ps => exact hkeep
  | setPipeline i name => exact hkeep
  | setColor i c => exact hkeep

theorem meshRun_length_mono :
    ∀ (ops : List MeshOp) (st : RendererState) (ids : List (Option Nat))
      (nid : Nat),
      st.meshes.length ≤ (meshRun ops (st, ids, nid)).1.meshes.length := by
  intro ops
  induction ops with
  | nil => intro st ids nid; exact le_refl _
  | cons op rest ih =>
    intro st ids nid
    exact le_trans (applyMeshOp_length st op)
      (ih (applyMeshOp st op) (idStep ids nid op).1 (idStep ids nid op).2)

theorem meshRun_id_stable :
    ∀ (ops : List MeshOp) (st : RendererState) (ids : List (Option Nat))
      (nid : Nat) (j : Nat) (v : Option Nat),
      ids[j]? = some v →
      (meshRun ops (st, ids, nid)).2.1[j]? = some v ∨
      (meshRun ops (st, ids, nid)).2.1[j]? = some none := by
  intro ops
  induction ops with
  | nil => intro st ids nid j v hj; exact Or.inl hj
  | cons op rest ih =>
    intro st ids nid j v hj
    rcases idStep_stable ids nid op j v hj with h | h
    · exact ih (applyMeshOp st op) _ _ j v h
    · rcases ih (applyMeshOp st op) _ _ j none h with h' | h' <;>
        exact Or.inr h'

theorem meshRun_fresh :
    ∀ (ops : List MeshOp) (st : RendererState) (ids : List (Option Nat))
      (nid : Nat), IdsWF ids nid →
      IdsWF (meshRun ops (st, ids, nid)).2.1 (meshRun ops (st, ids, nid)).2.2 ∧
      nid ≤ (meshRun ops (st, ids, nid)).2.2 ∧
      ∀ (j k : Nat), (meshRun ops (st, ids, nid)).2.1[j]? = some (some k) →
        ids[j]? = some (some k) ∨ nid ≤ k := by
  intro ops
  induction ops with
  | nil => intro st ids nid h; exact ⟨h, le_refl _, fun j k hk => Or.inl hk⟩
  | cons op rest ih =>
    intro st ids nid h
    obtain ⟨hwf1, hle1, hback1⟩ := idStep_fresh ids nid op h
    obtain ⟨hwf2, hle2, hback2⟩ := ih (applyMeshOp st op) _ _ hwf1
    refine ⟨hwf2, le_trans hle1 hle2, ?_⟩
    intro j k hk
    rcases hback2 j k hk with h' | h'
    · rcases hback1 j k h' with h'' | h''
      · exact Or.inl h''
      · exact Or.inr h''
    · exact Or.inr (le_trans hle1 h')

/-- C6.  Mesh index stability: every add pushes a new entry at the end and
returns the old length, so existing indices never move; `remove_mesh` on an
in-range index keeps the vector length, writes the inert zeroed entry into
the slot and leaves every other slot untouched; over any operation trace the
mesh vector never shrinks; and with ghost identifiers, a slot's logical-mesh
identifier can only stay the same or become cleared by `remove_mesh` - it is
never replaced by another identifier, and a fresh identifier is never one
seen before, so an index is never reused for a different logical mesh. -/
theorem mesh_index_stability :
    (∀ (st : RendererState) (d : MeshData),
      (add_mesh st d).2 = st.meshes.length ∧
      ∃ e, (add_mesh st d).1.meshes = st.meshes ++ [e]) ∧
    (∀ (st : RendererState) (d : MeshData) (ps : List (List Int))
        (tex nm : Option String),
      (add_mesh_instanced st d ps tex nm).2 = st.meshes.length ∧
      ∃ e, (add_mesh_instanced st d ps tex nm).1.meshes = st.meshes ++ [e]) ∧
    (∀ (st : RendererState) (d : SkinnedMeshData) (ps : List (List Int))
        (nm : Option String),
      (add_skinned_mesh_instanced st d ps nm).2 = st.meshes.length ∧
      ∃ e, (add_skinned_mesh_instanced st d ps nm).1.meshes = st.meshes ++ [e]) ∧
    (∀ (st : RendererState) (i : Nat), i < st.meshes.length →
      (remove_mesh st i).meshes.length = st.meshes.length ∧
      (remove_mesh st i).meshes[i]? = some inertMeshEntry ∧
      ∀ j, j ≠ i → (remove_mesh st i).meshes[j]? = st.meshes[j]?) ∧
    (∀ (ops : List MeshOp) (st : RendererState) (ids : List (Option Nat))
        (nid : Nat),
      st.meshes.length ≤ (meshRun ops (st, ids, nid)).1.meshes.length) ∧
    (∀ (ops : List MeshOp) (st : RendererState) (ids : List (Option Nat))
        (nid j : Nat) (v : Option Nat),
      ids[j]? = some v →
      (meshRun ops (st, ids, nid)).2.1[j]? = some v ∨
      (meshRun ops (st, ids, nid)).2.1[j]? = some none) ∧
    (∀ (ops : List MeshOp) (st : RendererState) (ids : List (Option Nat))
        (nid : Nat), IdsWF ids nid →
      IdsWF (meshRun ops (st, ids, nid)).2.1 (meshRun ops (st, ids, nid)).2.2 ∧
      ∀ (j k : Nat), (meshRun ops (st, ids, nid)).2.1[j]? = some (some k) →
        ids[j]? = some (some k) ∨ nid ≤ k) := by
  refine ⟨?_, ?_, ?_, ?_, meshRun_length_mono, meshRun_id_stable, ?_⟩
  · intro st d
    exact ⟨rfl, _, rfl⟩
  · intro st d ps tex nm
    exact ⟨rfl, _, rfl⟩
  · intro st d ps nm
    exact ⟨rfl, _, rfl⟩
  · intro st i hi
    refine ⟨?_, ?_, ?_⟩
    · unfold remove_mesh
      rw [if_neg (by omega)]
      exact setMesh_length st.meshes i _
    · unfold remove_mesh
      rw [if_neg (by omega)]
      show (setMesh st.meshes i _)[i]? = some inertMeshEntry
      rw [setMesh_getElem_eq st.meshes i _ hi]
      rcases List.getElem?_eq_getElem hi with h
      rw [h]
      rfl
    · intro j hj
      unfold remove_mesh
      rw [if_neg (by omega)]
      exact setMesh_getElem_ne st.meshes i j _ hj
  · intro ops st ids nid h
    obtain ⟨h1, -, h3⟩ := meshRun_fresh ops st ids nid h
    exact ⟨h1, h3⟩

/-- Witness for C6, instantiated on concrete states, indices and traces. -/
theorem mesh_index_stability_witness :
    ((add_mesh emptyRenderer ⟨[], [0, 1, 2]⟩).2 = emptyRenderer.meshes.length ∧
      ∃ e, (add_mesh emptyRenderer ⟨[], [0, 1, 2]⟩).1.meshes =
        emptyRenderer.meshes ++ [e]) ∧
    ((remove_mesh c10State 0).meshes.length = c10State.meshes.length ∧
      (remove_mesh c10State 0).meshes[0]? = some inertMeshEntry ∧
      ∀ j, j ≠ 0 → (remove_mesh c10State 0).meshes[j]? = c10State.meshes[j]?) ∧
    c10State.meshes.length ≤
      (meshRun [MeshOp.remove 0, MeshOp.add ⟨[], []⟩]
        (c10State, [some 0], 1)).1.meshes.length ∧
    ((meshRun [MeshOp.remove 0, MeshOp.add ⟨[], []⟩]
        (c10State, [some 0], 1)).2.1[0]? = some (some 0) ∨
      (meshRun [MeshOp.remove 0, MeshOp.add ⟨[], []⟩]
        (c10State, [some 0], 1)).2.1[0]? = some none) ∧
    (IdsWF (meshRun [MeshOp.remove 0, MeshOp.add ⟨[], []⟩]
        (c10State, [some 0], 1)).2.1
      (meshRun [MeshOp.remove 0, MeshOp.add ⟨[], []⟩]
        (c10State, [some 0], 1)).2.2 ∧
      ∀ (j k : Nat), (meshRun [MeshOp.remove 0, MeshOp.add ⟨[], []⟩]
          (c10State, [some 0], 1)).2.1[j]? = some (some k) →
        ([some 0] : List (Option Nat))[j]? = some (some k) ∨ 1 ≤ k) :=
  ⟨mesh_index_stability.1 emptyRenderer ⟨[], [0, 1, 2]⟩,
   mesh_index_stability.2.2.2.1 c10State 0 (by decide),
   mesh_index_stability.2.2.2.2.1 [MeshOp.remove 0, MeshOp.add ⟨[], []⟩]
     c10State [some 0] 1,
   mesh_index_stability.2.2.2.2.2.1 [MeshOp.remove 0, MeshOp.add ⟨[], []⟩]
     c10State [some 0] 1 0 (some 0) rfl,
   mesh_index_stability.2.2.2.2.2.2 [MeshOp.remove 0, MeshOp.add ⟨[], []⟩]
     c10State [some 0] 1
     (by
       constructor
       · intro j k hk
         cases j with
         | zero => simp at hk; omega
         | succ j0 => simp at hk
       · intro j j' k hk hk'
         cases j with
         | zero =>
           cases j' with
           | zero => rfl
           | succ j0 => simp at hk'
         | succ j0 => simp at hk)⟩

end Flo
